import Mathlib

/-!
Carbon Sentinel: report lifecycle and dashboard aggregation.

A shallow embedding of the domain logic of the React components
`CouncilDashboard.jsx`, `ReportList.jsx`, `ReportForm.jsx`, `MapView.jsx` and
`App.jsx`, with the properties of the report lifecycle stated over it.

Conventions of the embedding:

* a report field that may be absent (`undefined`) is an `Option`;
* `status` is `Option String`: the source only ever compares it with string
  literals through `===` and `!==`, and `none` stands for a status that is
  missing or not a string, which is `!==` to every string;
* a point in time is a `Nat` (milliseconds); `new Date().toISOString()` is
  represented by the reading itself;
* a number that may be `NaN` is an `Option Int`, `none` standing for `NaN`;
* an awaited call to the store or the storage is answered by an explicit
  environment, and the calls a handler makes are returned as a log.
-/

namespace CarbonSentinel

/-! ## Data model -/

/-- The `coords` object of a report document (`latitude`, `longitude`), in
fixed-point units (millionths of a degree). -/
structure Coords where
  latitude : Int
  longitude : Int
deriving DecidableEq, Repr

/-- The fields of a report document as stored in the `reports` collection
(`doc.data()`). -/
structure DocData where
  userId : String
  title : String
  description : String
  category : String
  severity : Option Int
  coords : Option Coords
  status : Option String
  createdAt : Option Nat
  updatedAt : Option Nat
  submittedAt : Option Nat
  reviewedAt : Option Nat
  resolvedAt : Option Nat
deriving DecidableEq, Repr

/-- A document of a query snapshot: `doc.id` and `doc.data()`. -/
structure Doc where
  id : String
  data : DocData
deriving DecidableEq, Repr

/-- A report as held in component state: `{ id: doc.id, ...doc.data() }`. -/
structure Report where
  id : String
  userId : String
  title : String
  description : String
  category : String
  severity : Option Int
  coords : Option Coords
  status : Option String
  createdAt : Option Nat
  updatedAt : Option Nat
  submittedAt : Option Nat
  reviewedAt : Option Nat
  resolvedAt : Option Nat
deriving DecidableEq, Repr

/-- The mapping `doc => ({ id: doc.id, ...doc.data() })` of the snapshot
callbacks. -/
def Doc.toReport (d : Doc) : Report :=
  { id := d.id
    userId := d.data.userId
    title := d.data.title
    description := d.data.description
    category := d.data.category
    severity := d.data.severity
    coords := d.data.coords
    status := d.data.status
    createdAt := d.data.createdAt
    updatedAt := d.data.updatedAt
    submittedAt := d.data.submittedAt
    reviewedAt := d.data.reviewedAt
    resolvedAt := d.data.resolvedAt }

/-- The `stats` state of `CouncilDashboard`. -/
structure Stats where
  submitted : Nat
  inReview : Nat
  resolved : Nat
  total : Nat
deriving DecidableEq, Repr

/-- The state of the `CouncilDashboard` component (its `useState` cells). -/
structure DashState where
  reports : List Report
  selectedReport : Option Report
  loading : Bool
  updating : Bool
  stats : Stats
deriving DecidableEq, Repr

/-- The initial values of the `useState` cells of `CouncilDashboard`. -/
def DashState.init : DashState :=
  { reports := []
    selectedReport := none
    loading := true
    updating := false
    stats := { submitted := 0, inReview := 0, resolved := 0, total := 0 } }

/-! ## `CouncilDashboard`: the snapshot callback -/

/-- The statistics computed in the `onSnapshot` callback from `reportsData`:
three `filter(...).length` counts and `reportsData.length`. -/
def computeStats (reportsData : List Report) : Stats :=
  let submitted := (reportsData.filter (fun r => r.status == some "Submitted")).length
  let inReview := (reportsData.filter (fun r => r.status == some "In Review")).length
  let resolved := (reportsData.filter (fun r => r.status == some "Resolved")).length
  { submitted := submitted
    inReview := inReview
    resolved := resolved
    total := reportsData.length }

/-- The `onSnapshot` callback of `CouncilDashboard`: `setReports`, `setStats`
and `setLoading(false)`; the other state cells are untouched. -/
def onSnapshot (st : DashState) (docs : List Doc) : DashState :=
  let reportsData := docs.map Doc.toReport
  { st with
    reports := reportsData
    stats := computeStats reportsData
    loading := false }

/-! ## `ReportList`: the status filter -/

/-- The `filteredReports` projection of `ReportList`:
`reports.filter(report => { if (filter === 'all') return true;
return report.status === filter; })`. -/
def filteredReports (reports : List Report) (filter : String) : List Report :=
  reports.filter (fun report =>
    if filter == "all" then true else report.status == some filter)

/-! ## `CouncilDashboard`: status updates -/

/-- The readings of the clock at the `new Date()` evaluations inside the
object literal that `handleStatusUpdate` passes to `updateDoc`, one per
field that may read it. -/
structure DateReads where
  updatedAt : Nat
  reviewedAt : Nat
  resolvedAt : Nat
deriving DecidableEq, Repr

/-- All `new Date()` evaluations of one call read the same instant. -/
def DateReads.at (t : Nat) : DateReads :=
  { updatedAt := t, reviewedAt := t, resolvedAt := t }

/-- The object `handleStatusUpdate` passes to `updateDoc`; a field whose
value is `undefined` is `none`. -/
structure StatusPatch where
  status : String
  updatedAt : Nat
  reviewedAt : Option Nat
  resolvedAt : Option Nat
deriving DecidableEq, Repr

/-- The object literal built in `handleStatusUpdate`:
`{ status: newStatus, updatedAt: now, reviewedAt: newStatus === 'In Review'
? now : undefined, resolvedAt: newStatus === 'Resolved' ? now : undefined }`.
It is built from `newStatus` and the clock alone. -/
def statusPatch (newStatus : String) (now : DateReads) : StatusPatch :=
  { status := newStatus
    updatedAt := now.updatedAt
    reviewedAt := if newStatus == "In Review" then some now.reviewedAt else none
    resolvedAt := if newStatus == "Resolved" then some now.resolvedAt else none }

/-- Modelled from the spec: the document store's `update(id, patch)`, an
external collaborator reached through `updateDoc` (the `services/firebase`
module that configures it is not part of the sources). It "applies a partial
update restricted to status + timestamp fields": every field of the patch
that carries a value is written, a field that carries none is left as it is
in the stored document, and no other field is touched. -/
def applyPatch (r : Report) (p : StatusPatch) : Report :=
  { r with
    status := some p.status
    updatedAt := some p.updatedAt
    reviewedAt := match p.reviewedAt with
      | some t => some t
      | none => r.reviewedAt
    resolvedAt := match p.resolvedAt with
      | some t => some t
      | none => r.resolvedAt }

/-- The stored report after the patch of `handleStatusUpdate(id, newStatus)`
has been applied by the store. -/
def transition (r : Report) (newStatus : String) (now : DateReads) : Report :=
  applyPatch r (statusPatch newStatus now)

/-- The user object `App` keeps in its `user` state and hands to
`CouncilDashboard` as the `user` prop. -/
structure AppUser where
  uid : String
  email : String
  roles : Option (List String)
deriving DecidableEq, Repr

/-- What one call of `handleStatusUpdate` does: the component state after
it, the `updateDoc` calls it made, and the `alert` messages it showed. -/
structure UpdateOutcome where
  state : DashState
  sent : List (String × StatusPatch)
  alerts : List String
deriving DecidableEq, Repr

/-- The `handleStatusUpdate` handler of `CouncilDashboard`. `user` is the
prop of the component the handler closes over, `storeAccepts` tells whether
the awaited `updateDoc` resolves (`true`) or rejects (`false`).
`setUpdating(true)`; in the `try`, `updateDoc` is called with the patch, then
`alert` and `setSelectedReport(null)`; the `catch` shows the failure alert;
`finally` does `setUpdating(false)`. -/
def handleStatusUpdate (_user : AppUser) (st : DashState) (reportId newStatus : String)
    (now : DateReads) (storeAccepts : Bool) : UpdateOutcome :=
  let st1 : DashState := { st with updating := true }
  let call := (reportId, statusPatch newStatus now)
  if storeAccepts then
    { state := { st1 with selectedReport := none, updating := false }
      sent := [call]
      alerts := ["Report status updated to: " ++ newStatus] }
  else
    { state := { st1 with updating := false }
      sent := [call]
      alerts := ["Failed to update report status"] }

/-- The targets of the buttons rendered under "Update Status" for a selected
report of the given status, in render order: nothing when the status is
`Resolved`; otherwise "Mark In Review" unless the status is `In Review`,
then "Mark Resolved" and "Archive". -/
def statusActions (status : Option String) : List String :=
  if status != some "Resolved" then
    (if status != some "In Review" then ["In Review"] else [])
      ++ ["Resolved", "Archived"]
  else []

/-- A run of dashboard actions on a stored report: each action must be one
of the buttons rendered for the report's current status, and its patch is
applied by the store; `none` when some action of the list is not offered. -/
def dashboardRun : Report → List (String × DateReads) → Option Report
  | r, [] => some r
  | r, (target, now) :: rest =>
    if (statusActions r.status).contains target then
      dashboardRun (transition r target now) rest
    else none

/-! ## `App`: the `/council` route -/

/-- The `userData` state of `App`: the user record read from the `users`
collection; `roles` may be absent. -/
structure UserData where
  roles : Option (List String)
deriving DecidableEq, Repr

/-- The state of `App` that the routes read. -/
structure AppState where
  user : Option AppUser
  userData : Option UserData
  loading : Bool
deriving DecidableEq, Repr

/-- What a route renders. -/
inductive RouteElement where
  | councilDashboard (user : AppUser)
  | navigate (path : String)
deriving DecidableEq, Repr

/-- The test `userData?.roles?.includes('council')`, as a truth value. -/
def rolesIncludeCouncil (userData : Option UserData) : Bool :=
  match userData with
  | none => false
  | some d =>
    match d.roles with
    | none => false
    | some roles => roles.contains "council"

/-- The element of the `/council` route: `user &&
userData?.roles?.includes('council') ? <CouncilDashboard user={user} /> :
user ? <Navigate to="/citizen" /> : <Navigate to="/login" />`. -/
def councilRoute (s : AppState) : RouteElement :=
  match s.user with
  | some u =>
    if rolesIncludeCouncil s.userData then RouteElement.councilDashboard u
    else RouteElement.navigate "/citizen"
  | none => RouteElement.navigate "/login"

/-! ## `ReportForm`: state and image selection -/

/-- A location picked on the map or read from the geolocation service:
`{ lat, lng }`, in fixed-point units (millionths of a degree). -/
structure LatLng where
  lat : Int
  lng : Int
deriving DecidableEq, Repr

/-- A `File` chosen in the image input: the fields `ReportForm` reads. -/
structure ImageFile where
  name : String
  type : String
  size : Nat
deriving DecidableEq, Repr

/-- The value held by the `severity` state: the number of `useState(2)` and
`setSeverity(2)`, or the string `e.target.value` of the select. -/
inductive SeverityValue where
  | num (n : Nat)
  | str (s : String)
deriving DecidableEq, Repr

/-- The state of the `ReportForm` component (its `useState` cells). The cell
of the previews is declared as `[imagePrePreviews, setImagePreviews]`. -/
structure FormState where
  title : String
  description : String
  category : String
  severity : SeverityValue
  location : Option LatLng
  images : List ImageFile
  imagePrePreviews : List String
  loading : Bool
  error : String
  showMap : Bool
deriving DecidableEq, Repr

/-- The initial values of the `useState` cells of `ReportForm`. -/
def FormState.init : FormState :=
  { title := ""
    description := ""
    category := "waste_dumping"
    severity := SeverityValue.num 2
    location := none
    images := []
    imagePrePreviews := []
    loading := false
    error := ""
    showMap := false }

/-- The array method `filter((_, i) => i !== index)`. -/
def removeIndex {α : Type} (xs : List α) (index : Nat) : List α :=
  (xs.enum.filter (fun p => p.1 != index)).map Prod.snd

/-- The `handleImageChange` handler, up to the start of the file readers:
more than five images in all sets the error and returns, otherwise the files
are appended to `images`. -/
def handleImageChange (st : FormState) (files : List ImageFile) : FormState :=
  if files.length + st.images.length > 5 then
    { st with error := "Maximum 5 images allowed" }
  else
    { st with images := st.images ++ files }

/-- The `reader.onloadend` callback installed by `handleImageChange`:
`setImagePreviews(prev => [...prev, reader.result])`. -/
def onloadend (st : FormState) (result : String) : FormState :=
  { st with imagePrePreviews := st.imagePrePreviews ++ [result] }

/-- The `removeImage` handler: the entry at `index` is dropped from `images`
and from the previews. -/
def removeImage (st : FormState) (index : Nat) : FormState :=
  { st with
    images := removeIndex st.images index
    imagePrePreviews := removeIndex st.imagePrePreviews index }

/-- The events that change the image selection of the form. -/
inductive ImageEvent where
  | change (files : List ImageFile)
  | loaded (result : String)
  | remove (index : Nat)
deriving DecidableEq, Repr

/-- One image event applied to the form state. -/
def ImageEvent.apply (st : FormState) : ImageEvent → FormState
  | ImageEvent.change files => handleImageChange st files
  | ImageEvent.loaded result => onloadend st result
  | ImageEvent.remove index => removeImage st index

/-- A sequence of image events applied in order. -/
def imageRun (st : FormState) (events : List ImageEvent) : FormState :=
  events.foldl ImageEvent.apply st

/-! ## `ReportForm`: `parseInt` -/

/-- The characters `parseInt` skips at the start of its input (white space
and line terminators). -/
def isJsWhitespace (c : Char) : Bool :=
  c.toNat == 9 || c.toNat == 10 || c.toNat == 11 || c.toNat == 12 || c.toNat == 13
    || c.toNat == 32 || c.toNat == 160 || c.toNat == 5760
    || (8192 ≤ c.toNat && c.toNat ≤ 8202)
    || c.toNat == 8232 || c.toNat == 8233 || c.toNat == 8239 || c.toNat == 8287
    || c.toNat == 12288 || c.toNat == 65279

/-- The value of a character as a digit, letters counting from ten. -/
def digitValue (c : Char) : Option Nat :=
  if 48 ≤ c.toNat && c.toNat ≤ 57 then some (c.toNat - 48)
  else if 97 ≤ c.toNat && c.toNat ≤ 122 then some (c.toNat - 97 + 10)
  else if 65 ≤ c.toNat && c.toNat ≤ 90 then some (c.toNat - 65 + 10)
  else none

/-- The longest run of digits of the radix at the start of the input. -/
def leadingDigits (radix : Nat) : List Char → List Nat
  | [] => []
  | c :: cs =>
    match digitValue c with
    | some d => if d < radix then d :: leadingDigits radix cs else []
    | none => []

/-- The function `parseInt` on a string, without a radix argument: leading
white space is skipped, a sign is read, a `0x` or `0X` prefix selects radix
sixteen, and the longest run of digits is the value; `none` (`NaN`) when
there is no digit. Exact for values an IEEE double holds exactly. -/
def parseIntChars (cs : List Char) : Option Int :=
  let s := cs.dropWhile isJsWhitespace
  let signed : Bool × List Char :=
    match s with
    | '-' :: t => (true, t)
    | '+' :: t => (false, t)
    | _ => (false, s)
  let based : Nat × List Char :=
    match signed.2 with
    | '0' :: 'x' :: t => (16, t)
    | '0' :: 'X' :: t => (16, t)
    | _ => (10, signed.2)
  match leadingDigits based.1 based.2 with
  | [] => none
  | ds =>
    let v : Nat := ds.foldl (fun acc d => acc * based.1 + d) 0
    some (if signed.1 then - (v : Int) else (v : Int))

/-- The call `parseInt(severity)`: the argument is converted to a string
first (a number below `10^21` to its decimal digits). -/
def parseInt : SeverityValue → Option Int
  | SeverityValue.num n => parseIntChars (toString n).data
  | SeverityValue.str s => parseIntChars s.data

/-! ## `ReportForm`: submission -/

/-- A timestamp field of a document handed to the store: the sentinel
returned by `serverTimestamp()`, or a concrete instant. -/
inductive TimeValue where
  | serverTimestamp
  | instant (t : Nat)
deriving DecidableEq, Repr

/-- An entry of `imageUrls`: `{ path, url, contentType, sizeBytes }`. -/
structure ImageMeta where
  path : String
  url : String
  contentType : String
  sizeBytes : Nat
deriving DecidableEq, Repr

/-- The `reportData` object `handleSubmit` passes to `addDoc`. -/
structure ReportData where
  userId : String
  title : String
  description : String
  category : String
  severity : Option Int
  coords : Coords
  status : String
  createdAt : TimeValue
  updatedAt : TimeValue
  submittedAt : TimeValue
  images : List ImageMeta
deriving DecidableEq, Repr

/-- The object literal `reportData` built in `handleSubmit` for a selected
location. -/
def reportData (user : AppUser) (st : FormState) (location : LatLng) : ReportData :=
  { userId := user.uid
    title := st.title
    description := st.description
    category := st.category
    severity := parseInt st.severity
    coords := { latitude := location.lat, longitude := location.lng }
    status := "Submitted"
    createdAt := TimeValue.serverTimestamp
    updatedAt := TimeValue.serverTimestamp
    submittedAt := TimeValue.serverTimestamp
    images := [] }

/-- A call `handleSubmit` makes to the store, the storage, its `onSuccess`
prop or `alert`, in the order made. -/
inductive Call where
  | addReport (data : ReportData)
  | uploadBytes (path : String) (image : ImageFile)
  | getDownloadURL (path : String)
  | addImages (reportId : String) (images : List ImageMeta)
  | onSuccess
  | alert (message : String)
deriving DecidableEq, Repr

/-- The answers of the outside world to one run of `handleSubmit`:
`addReport` is the id of the created document when the first `addDoc`
resolves and `none` when it rejects; `now i` is the reading of `Date.now()`
in iteration `i` of the upload loop; `uploadOk i` tells whether `uploadBytes`
resolves in iteration `i`; `downloadURL i` is the URL `getDownloadURL`
resolves with in iteration `i`, `none` when it rejects; `addImagesOk` tells
whether the `addDoc` on the `images` sub-collection resolves. -/
structure SubmitEnv where
  addReport : Option String
  now : Nat → Nat
  uploadOk : Nat → Bool
  downloadURL : Nat → Option String
  addImagesOk : Bool

/-- The expression `image.name.split('.').pop()`: the characters after the last
dot, the whole name when it has none. -/
def lastSegment (name : String) : String :=
  String.mk (name.data.foldl (fun seg c => if c = '.' then [] else seg ++ [c]) [])

/-- The template `${reportId}_${timestamp}_${i}.${image.name.split('.').pop()}`. -/
def fileName (reportId : String) (timestamp i : Nat) (image : ImageFile) : String :=
  reportId ++ "_" ++ toString timestamp ++ "_" ++ toString i ++ "." ++ lastSegment image.name

/-- The template `reports/${reportId}/images/${fileName}`. -/
def storagePath (reportId fileName : String) : String :=
  "reports/" ++ reportId ++ "/images/" ++ fileName

/-- The storage key of the image of iteration `i`. -/
def imagePath (env : SubmitEnv) (reportId : String) (i : Nat) (image : ImageFile) : String :=
  storagePath reportId (fileName reportId (env.now i) i image)

/-- The loop of `uploadImages` from iteration `i` on, with `imageUrls`
accumulated so far: `uploadBytes`, then `getDownloadURL`, then the push; a
rejected await leaves the loop and rejects the whole call (`none`). The
second component is the log of the storage calls made. -/
def uploadLoop (env : SubmitEnv) (reportId : String) :
    Nat → List ImageFile → List ImageMeta → Option (List ImageMeta) × List Call
  | _, [], imageUrls => (some imageUrls, [])
  | i, image :: rest, imageUrls =>
    let path := imagePath env reportId i image
    if env.uploadOk i then
      match env.downloadURL i with
      | some url =>
        let entry : ImageMeta :=
          { path := path, url := url, contentType := image.type, sizeBytes := image.size }
        let next := uploadLoop env reportId (i + 1) rest (imageUrls ++ [entry])
        (next.1, Call.uploadBytes path image :: Call.getDownloadURL path :: next.2)
      | none => (none, [Call.uploadBytes path image, Call.getDownloadURL path])
    else (none, [Call.uploadBytes path image])

/-- The `uploadImages` function of `ReportForm`, on the `images` state. -/
def uploadImages (env : SubmitEnv) (reportId : String) (images : List ImageFile) :
    Option (List ImageMeta) × List Call :=
  uploadLoop env reportId 0 images []

/-- The form state after the `catch` and `finally` blocks of `handleSubmit`. -/
def submitFailed (st : FormState) : FormState :=
  { st with error := "Failed to submit report. Please try again.", loading := false }

/-- The form state after the reset at the end of the `try` block and the
`finally` block of `handleSubmit`. -/
def submitDone (st : FormState) : FormState :=
  { st with
    error := ""
    loading := false
    title := ""
    description := ""
    category := "waste_dumping"
    severity := SeverityValue.num 2
    location := none
    images := []
    imagePrePreviews := [] }

/-- The calls that end a successful submission: `onSuccess()` when the prop
was given, then the `alert`. -/
def successCalls (hasOnSuccess : Bool) : List Call :=
  (if hasOnSuccess then [Call.onSuccess] else [])
    ++ [Call.alert "Report submitted successfully!"]

/-- The `handleSubmit` handler of `ReportForm`: the form state after it and
the log of the calls it made. Without a location it sets the error and
returns. Otherwise `addDoc` is awaited with `reportData`; then, when images
are selected, `uploadImages` and the `addDoc` on the `images` sub-collection
are awaited; then the form is reset. A rejected await goes to the `catch`
block. -/
def handleSubmit (user : AppUser) (hasOnSuccess : Bool) (env : SubmitEnv)
    (st : FormState) : FormState × List Call :=
  match st.location with
  | none =>
    ({ st with error := "Please select a location for your report", loading := false }, [])
  | some location =>
    let create := Call.addReport (reportData user st location)
    match env.addReport with
    | none => (submitFailed st, [create])
    | some reportId =>
      if st.images.length > 0 then
        let uploaded := uploadImages env reportId st.images
        match uploaded.1 with
        | none => (submitFailed st, create :: uploaded.2)
        | some imageUrls =>
          let attach := Call.addImages reportId imageUrls
          if env.addImagesOk then
            (submitDone st, create :: uploaded.2 ++ [attach] ++ successCalls hasOnSuccess)
          else (submitFailed st, create :: uploaded.2 ++ [attach])
      else (submitDone st, create :: successCalls hasOnSuccess)

/-- Modelled from the spec: the store's `create`, an external collaborator
reached through `addDoc`, which "assigns identity and server timestamps":
the document stored under the new id, every `serverTimestamp()` sentinel of
one write replaced by the one commit time of the write. -/
def storeCreate (id : String) (serverTime : Nat) (data : ReportData) : Doc :=
  let resolve : TimeValue → Nat := fun v =>
    match v with
    | TimeValue.serverTimestamp => serverTime
    | TimeValue.instant t => t
  { id := id
    data :=
      { userId := data.userId
        title := data.title
        description := data.description
        category := data.category
        severity := data.severity
        coords := some data.coords
        status := some data.status
        createdAt := some (resolve data.createdAt)
        updatedAt := some (resolve data.updatedAt)
        submittedAt := some (resolve data.submittedAt)
        reviewedAt := none
        resolvedAt := none } }

/-- The entry `uploadImages` pushes in iteration `i` when both awaits
resolve. -/
def entryOf (env : SubmitEnv) (reportId : String) (i : Nat) (image : ImageFile) : ImageMeta :=
  { path := imagePath env reportId i image
    url := (env.downloadURL i).getD ""
    contentType := image.type
    sizeBytes := image.size }

/-- The storage calls of iteration `i` when `uploadBytes` resolves. -/
def storageCalls (env : SubmitEnv) (reportId : String) (i : Nat) (image : ImageFile) :
    List Call :=
  [Call.uploadBytes (imagePath env reportId i image) image,
   Call.getDownloadURL (imagePath env reportId i image)]

/-- The images passed to `uploadBytes` in a log of calls, in call order. -/
def uploadedImages : List Call → List ImageFile
  | [] => []
  | Call.uploadBytes _ image :: rest => image :: uploadedImages rest
  | _ :: rest => uploadedImages rest

/-- The metadata lists passed to the `addDoc` on the `images`
sub-collection in a log of calls. -/
def attachedImages : List Call → List (List ImageMeta)
  | [] => []
  | Call.addImages _ images :: rest => images :: attachedImages rest
  | _ :: rest => attachedImages rest

/-! ## `CouncilDashboard`: events -/

/-- The events that change the state of `CouncilDashboard`: a snapshot
delivery, a click on the row at a position of the rendered report list, and
a press on the action button for a target status, with the clock readings
and the answer of the store. -/
inductive DashEvent where
  | snapshot (docs : List Doc)
  | click (row : Nat)
  | action (target : String) (now : DateReads) (storeAccepts : Bool)
deriving DecidableEq, Repr

/-- The row handler `onClick={() => setSelectedReport(report)}` of the row
rendered for `reports[row]`; there is no row beyond the list. -/
def clickRow (st : DashState) (row : Nat) : DashState :=
  match st.reports[row]? with
  | some report => { st with selectedReport := some report }
  | none => st

/-- A press on an action button: the buttons exist for a selected report
only, for the targets `statusActions` lists for its status, and call
`handleStatusUpdate(selectedReport.id, target)`. -/
def pressAction (user : AppUser) (st : DashState) (target : String) (now : DateReads)
    (storeAccepts : Bool) : DashState :=
  match st.selectedReport with
  | some selected =>
    if (statusActions selected.status).contains target then
      (handleStatusUpdate user st selected.id target now storeAccepts).state
    else st
  | none => st

/-- One event applied to the dashboard state. -/
def DashEvent.apply (user : AppUser) (st : DashState) : DashEvent → DashState
  | DashEvent.snapshot docs => onSnapshot st docs
  | DashEvent.click row => clickRow st row
  | DashEvent.action target now storeAccepts => pressAction user st target now storeAccepts

/-- A sequence of events applied in order. -/
def dashEvents (user : AppUser) (st : DashState) (events : List DashEvent) : DashState :=
  events.foldl (DashEvent.apply user) st

/-! ## `ReportForm`: the severity select and the render -/

/-- The `value` attributes of the options of the severity select. -/
def severityOptions : List String := ["1", "2", "3", "4"]

/-- The handler `onChange={(e) => setSeverity(e.target.value)}` of the
severity select. -/
def selectSeverity (st : FormState) (value : String) : FormState :=
  { st with severity := SeverityValue.str value }

/-- A sequence of choices in the severity select. -/
def severityRun (st : FormState) (values : List String) : FormState :=
  values.foldl selectSeverity st

/-- The identifiers bound in the body of `ReportForm`: the imports of the
module, the props, the state cells with their setters as the `useState`
lines declare them, and the constants of the component. -/
def formBindings : List String :=
  ["useState", "useEffect", "db", "storage", "collection", "addDoc", "serverTimestamp",
   "ref", "uploadBytes", "getDownloadURL", "Camera", "MapPin", "Send", "X", "Upload",
   "MapView", "user", "onSuccess",
   "title", "setTitle", "description", "setDescription", "category", "setCategory",
   "severity", "setSeverity", "location", "setLocation", "images", "setImages",
   "imagePrePreviews", "setImagePreviews", "loading", "setLoading", "error", "setError",
   "showMap", "setShowMap",
   "categories", "handleImageChange", "removeImage", "handleLocationSelect",
   "getCurrentLocation", "uploadImages", "handleSubmit"]

/-- The first identifier of a list that is not bound in the component. -/
def firstUnbound (names : List String) : Option String :=
  names.find? (fun name => !formBindings.contains name)

/-- The identifiers the returned JSX evaluates, in order, before it reaches
the "Image Previews" block (bodies of arrow functions are not evaluated). -/
def readsBeforePreviews (st : FormState) : List String :=
  ["error"] ++ (if st.error != "" then ["X", "error"] else [])
    ++ ["handleSubmit", "title", "description", "category", "categories", "severity",
        "location"]
    ++ (match st.location with
        | some _ => ["MapPin", "location", "location", "X"]
        | none => ["getCurrentLocation", "MapPin", "MapPin"])
    ++ ["showMap"]
    ++ (if st.showMap then
          ["location"] ++ (if st.location.isNone then ["MapView", "handleLocationSelect"]
                           else [])
        else [])
    ++ ["Camera", "handleImageChange"]

/-- The identifiers the returned JSX evaluates from the body of the "Image
Previews" block on, given the value of the tested list. -/
def readsAfterPreviews (st : FormState) (previews : List String) : List String :=
  (if previews.length > 0 then
      ["imagePreviews"] ++ previews.map (fun _ => "X")
    else [])
    ++ ["loading"] ++ (if st.loading then [] else ["Send"])

/-- The value of an identifier that holds the list of previews: the state
cell is bound to the name `imagePrePreviews` and to no other name. -/
def previewBinding (st : FormState) (name : String) : Option (List String) :=
  if name == "imagePrePreviews" then some st.imagePrePreviews else none

/-- The outcome of rendering `ReportForm`: the element, of which it is
recorded whether the preview grid is part of it, or a `ReferenceError` for
an identifier that is not bound. -/
inductive RenderResult where
  | rendered (previewGrid : Bool)
  | referenceError (name : String)
deriving DecidableEq, Repr

/-- The render of `ReportForm`: the identifiers are evaluated in order; the
"Image Previews" block tests `imagePreviews.length > 0`. -/
def renderForm (st : FormState) : RenderResult :=
  match firstUnbound (readsBeforePreviews st) with
  | some name => RenderResult.referenceError name
  | none =>
    match previewBinding st "imagePreviews" with
    | none => RenderResult.referenceError "imagePreviews"
    | some previews =>
      match firstUnbound (readsAfterPreviews st previews) with
      | some name => RenderResult.referenceError name
      | none => RenderResult.rendered (decide (previews.length > 0))

/-! ## `App`: the auth-state callback -/

/-- The user object the identity provider hands to the callback. -/
structure AuthUser where
  uid : String
  email : String
deriving DecidableEq, Repr

/-- The answer to `getDoc(doc(db, 'users', currentUser.uid))`: the record of
that user, no record, or a rejected read. -/
inductive UserFetch where
  | found (data : UserData)
  | missing
  | failed
deriving DecidableEq, Repr

/-- A call of the `onAuthStateChanged` callback: with a user and the answer
to the read of their record, or with `null`. -/
inductive AuthEvent where
  | signedIn (currentUser : AuthUser) (record : UserFetch)
  | signedOut
deriving DecidableEq, Repr

/-- The initial values of the `useState` cells of `App`. -/
def AppState.init : AppState :=
  { user := none, userData := none, loading := true }

/-- The callback `App` registers with `onAuthStateChanged`. With a user
whose record exists: `setUserData(data)` and `setUser({ ...currentUser,
...data })`; with a user whose record is missing or whose read failed:
`setUser(currentUser)` only; with `null`: `setUser(null)` and
`setUserData(null)`; then `setLoading(false)`. -/
def authCallback (s : AppState) : AuthEvent → AppState
  | AuthEvent.signedIn currentUser (UserFetch.found data) =>
    { user := some { uid := currentUser.uid, email := currentUser.email, roles := data.roles }
      userData := some data
      loading := false }
  | AuthEvent.signedIn currentUser UserFetch.missing =>
    { s with
      user := some { uid := currentUser.uid, email := currentUser.email, roles := none }
      loading := false }
  | AuthEvent.signedIn currentUser UserFetch.failed =>
    { s with
      user := some { uid := currentUser.uid, email := currentUser.email, roles := none }
      loading := false }
  | AuthEvent.signedOut => { user := none, userData := none, loading := false }

/-- A sequence of auth-state callbacks, run one after the other. -/
def authRun (s : AppState) (events : List AuthEvent) : AppState :=
  events.foldl authCallback s

/-- The record of the user the last callback was called with: the record
that was read for them, `none` when they have none, when its read failed, or
when nobody is signed in. -/
def ownRecord (events : List AuthEvent) : Option UserData :=
  match events.getLast? with
  | some (AuthEvent.signedIn _ (UserFetch.found data)) => some data
  | _ => none

/-! ## `MapView`: the `locationfound` handler of `LocationMarker` -/

/-- A value the handler is applied to: a location event, whose `latlng`
property is a position; a position object, which has no `latlng` property;
or `undefined`. -/
inductive HandlerArg where
  | event (latlng : LatLng)
  | position (p : LatLng)
  | undefined
deriving DecidableEq, Repr

/-- The property read `e.latlng`: it throws a `TypeError` on `undefined`. -/
def HandlerArg.latlng : HandlerArg → Except String HandlerArg
  | HandlerArg.event p => Except.ok (HandlerArg.position p)
  | HandlerArg.position _ => Except.ok HandlerArg.undefined
  | HandlerArg.undefined =>
    Except.error "TypeError: Cannot read properties of undefined (reading latlng)"

/-- What a call of the handler did: the arguments the callback received as
the `onLocationFound` prop was called with, in order, and the error thrown,
if any. -/
structure HandlerOutcome where
  propCalls : List LatLng
  thrown : Option String
deriving DecidableEq, Repr

/-- The handler `const onLocationFound = (e) => { if (onLocationFound) {
onLocationFound(e.latlng); } }` declared inside the effect of
`LocationMarker`. Inside its body the name `onLocationFound` is this
constant, which hides the prop of the same name: the test is on the handler
itself, which is a function and so truthy, and the call is a call of the
handler on `e.latlng`. The first argument counts the nested calls allowed;
`none` when they are used up. -/
def onLocationFound (_propSupplied : Bool) : Nat → HandlerArg → Option HandlerOutcome
  | 0, _ => none
  | fuel + 1, e =>
    match e.latlng with
    | Except.error message => some { propCalls := [], thrown := some message }
    | Except.ok arg => onLocationFound _propSupplied fuel arg

/-! ## Counting and sample data -/

/-- Number of documents of a snapshot whose status is the given string. -/
def statusCount (docs : List Doc) (status : String) : Nat :=
  (docs.map (fun d => d.data.status)).count (some status)

/-- Number of documents of a snapshot whose status is none of `Submitted`,
`In Review`, `Resolved`. -/
def otherStatusCount (docs : List Doc) : Nat :=
  (docs.filter (fun d => d.data.status != some "Submitted"
    && d.data.status != some "In Review" && d.data.status != some "Resolved")).length

/-- The document data `ReportForm` stores for a new report, with the given
status: no `reviewedAt` and no `resolvedAt`. -/
def sampleData (status : String) : DocData :=
  { userId := "u1"
    title := "Illegal dumping near river"
    description := "Waste left on the bank"
    category := "waste_dumping"
    severity := some 3
    coords := some { latitude := -1290000, longitude := 36820000 }
    status := some status
    createdAt := some 10
    updatedAt := some 10
    submittedAt := some 10
    reviewedAt := none
    resolvedAt := none }

/-- A freshly submitted report. -/
def sampleReport : Report :=
  Doc.toReport { id := "r1", data := sampleData "Submitted" }

/-- A signed-in citizen: a user record without the `council` role. -/
def sampleCitizen : AppUser :=
  { uid := "u1", email := "citizen@example.org", roles := some [] }

/-- Two image files. -/
def sampleImages : List ImageFile :=
  [{ name := "river.jpg", type := "image/jpeg", size := 1200 },
   { name := "bank.photo.png", type := "image/png", size := 3400 }]

/-- A filled-in form with a selected location and two images. -/
def sampleForm : FormState :=
  { FormState.init with
    title := "Illegal dumping near river"
    description := "Waste left on the bank"
    severity := SeverityValue.str "3"
    location := some { lat := -1290000, lng := 36820000 }
    images := sampleImages }

/-- A form left blank apart from a location at latitude 200 degrees and a
severity that is not a number. -/
def blankForm : FormState :=
  { FormState.init with
    severity := SeverityValue.str "abc"
    category := "noise"
    location := some { lat := 200000000, lng := 0 } }

/-- A council member and a newcomer, as the identity provider reports
them. -/
def sampleCouncilAuth : AuthUser := { uid := "a", email := "council@example.org" }

/-- A user without a record in the `users` collection. -/
def sampleNewcomerAuth : AuthUser := { uid := "b", email := "newcomer@example.org" }

/-- An environment in which every call resolves. -/
def sampleEnv : SubmitEnv :=
  { addReport := some "r1"
    now := fun i => 1000 + i
    uploadOk := fun _ => true
    downloadURL := fun i => some ("https://storage.example/" ++ toString i)
    addImagesOk := true }

/-! ## Aggregation and filtering: properties -/

theorem filter_status_length (docs : List Doc) (s : String) :
    ((docs.map Doc.toReport).filter (fun r => r.status == some s)).length
      = statusCount docs s := by
  unfold statusCount
  induction docs with
  | nil => rfl
  | cons d ds ih =>
    by_cases h : d.data.status = some s
    · simp [List.filter_cons, Doc.toReport, h, List.count_cons] at ih ⊢
      exact ih
    · have h2 : ¬ (some s = d.data.status) := fun e => h e.symm
      simp [List.filter_cons, Doc.toReport, h, h2, List.count_cons] at ih ⊢
      exact ih

/-- C1: for every prior dashboard state and every snapshot, the stats stored
by the snapshot callback have `total` equal to the number of documents and
`submitted`, `inReview`, `resolved` equal to the number of documents whose
status is `Submitted`, `In Review`, `Resolved` respectively; the stored
report list is the snapshot itself. -/
theorem onSnapshot_stats_correct (st : DashState) (docs : List Doc) :
    (onSnapshot st docs).reports = docs.map Doc.toReport ∧
    (onSnapshot st docs).stats.total = docs.length ∧
    (onSnapshot st docs).stats.submitted = statusCount docs "Submitted" ∧
    (onSnapshot st docs).stats.inReview = statusCount docs "In Review" ∧
    (onSnapshot st docs).stats.resolved = statusCount docs "Resolved" := by
  refine ⟨rfl, ?_, ?_, ?_, ?_⟩
  · simp [onSnapshot, computeStats]
  · exact filter_status_length docs "Submitted"
  · exact filter_status_length docs "In Review"
  · exact filter_status_length docs "Resolved"

theorem stats_partition (docs : List Doc) :
    statusCount docs "Submitted" + statusCount docs "In Review"
      + statusCount docs "Resolved" + otherStatusCount docs = docs.length := by
  unfold statusCount otherStatusCount
  induction docs with
  | nil => rfl
  | cons d ds ih =>
    simp only [List.map_cons, List.count_cons, List.filter_cons, List.length_cons]
    by_cases h1 : d.data.status = some "Submitted"
    · simp [h1]; omega
    · by_cases h2 : d.data.status = some "In Review"
      · simp [h2]; omega
      · by_cases h3 : d.data.status = some "Resolved"
        · simp [h3]; omega
        · simp [h1, h2, h3]; omega

/-- C2 (as stated, refuted): a snapshot holding one report whose status is
`Archived` has `total = 1` while `submitted + inReview + resolved = 0`; the
dashboard keeps no counter for that status. -/
theorem stats_sum_ne_total_archived :
    (onSnapshot DashState.init [{ id := "r1", data := sampleData "Archived" }]).stats.total = 1 ∧
    (onSnapshot DashState.init [{ id := "r1", data := sampleData "Archived" }]).stats.submitted
      + (onSnapshot DashState.init [{ id := "r1", data := sampleData "Archived" }]).stats.inReview
      + (onSnapshot DashState.init [{ id := "r1", data := sampleData "Archived" }]).stats.resolved
      ≠ (onSnapshot DashState.init [{ id := "r1", data := sampleData "Archived" }]).stats.total := by
  decide

/-- C2 (amended): the dashboard keeps exactly three status counters, and for
every snapshot their sum plus the number of reports whose status is none of
`Submitted`, `In Review`, `Resolved` equals `total`. -/
theorem stats_sum_plus_other_eq_total (st : DashState) (docs : List Doc) :
    (onSnapshot st docs).stats.submitted + (onSnapshot st docs).stats.inReview
      + (onSnapshot st docs).stats.resolved + otherStatusCount docs
      = (onSnapshot st docs).stats.total := by
  have h := stats_partition docs
  simp only [onSnapshot, computeStats, filter_status_length, List.length_map]
  exact h

/-- C3: `filteredReports` is the whole list when the filter is `all`, and
otherwise the sublist, in the original order, of the reports whose status is
the filter value. -/
theorem filteredReports_spec (reports : List Report) (filter : String) :
    filteredReports reports filter
      = (if filter = "all" then reports
         else reports.filter (fun r => r.status == some filter)) ∧
    (filteredReports reports filter).Sublist reports ∧
    (∀ r, r ∈ filteredReports reports filter ↔
      r ∈ reports ∧ (filter = "all" ∨ r.status = some filter)) := by
  refine ⟨?_, List.filter_sublist _, ?_⟩
  · by_cases h : filter = "all"
    · simp [filteredReports, h]
    · simp [filteredReports, h]
  · intro r
    by_cases h : filter = "all"
    · simp [filteredReports, h]
    · simp [filteredReports, h]

/-! ## Status updates: properties -/

theorem statusPatch_reviewedAt_isSome (newStatus : String) (now : DateReads) :
    (statusPatch newStatus now).reviewedAt.isSome = true ↔ newStatus = "In Review" := by
  by_cases h : newStatus = "In Review" <;> simp [statusPatch, h]

theorem statusPatch_resolvedAt_isSome (newStatus : String) (now : DateReads) :
    (statusPatch newStatus now).resolvedAt.isSome = true ↔ newStatus = "Resolved" := by
  by_cases h : newStatus = "Resolved" <;> simp [statusPatch, h]

/-- C4: whatever the caller, the dashboard state, the report id, the new
status and the store's answer, `handleStatusUpdate` makes exactly one
`updateDoc` call, on the given id, with a patch that is built from the new
status and the clock alone (it is the same for every dashboard state), sets
`status` to the new status and `updatedAt` to the clock reading, carries a
`resolvedAt` value exactly when the new status is `Resolved`, a `reviewedAt`
value exactly when it is `In Review`, and for `Archived` carries neither.
The current status of the report is not read: applied after any earlier
transition, the patch leaves the new status and the new `updatedAt` (the
last write wins). -/
theorem handleStatusUpdate_patch (user : AppUser) (st : DashState)
    (reportId newStatus : String) (now : DateReads) (storeAccepts : Bool) :
    (handleStatusUpdate user st reportId newStatus now storeAccepts).sent
      = [(reportId, statusPatch newStatus now)] ∧
    (statusPatch newStatus now).status = newStatus ∧
    (statusPatch newStatus now).updatedAt = now.updatedAt ∧
    ((statusPatch newStatus now).resolvedAt.isSome = true ↔ newStatus = "Resolved") ∧
    ((statusPatch newStatus now).reviewedAt.isSome = true ↔ newStatus = "In Review") ∧
    (statusPatch "Archived" now).reviewedAt = none ∧
    (statusPatch "Archived" now).resolvedAt = none ∧
    (∀ (st' : DashState), (handleStatusUpdate user st' reportId newStatus now storeAccepts).sent
      = (handleStatusUpdate user st reportId newStatus now storeAccepts).sent) ∧
    (∀ (r : Report) (earlier : String) (before : DateReads),
      (transition (transition r earlier before) newStatus now).status = some newStatus ∧
      (transition (transition r earlier before) newStatus now).updatedAt
        = some now.updatedAt) := by
  refine ⟨?_, rfl, rfl, statusPatch_resolvedAt_isSome newStatus now,
    statusPatch_reviewedAt_isSome newStatus now, ?_, ?_, ?_, ?_⟩
  · cases storeAccepts <;> rfl
  · simp [statusPatch]
  · simp [statusPatch]
  · intro st'
    cases storeAccepts <;> rfl
  · intro r earlier before
    exact ⟨rfl, rfl⟩

/-- C5 (as stated, refuted): called for a signed-in user whose roles do not
contain `council`, `handleStatusUpdate` still sends the update to the store
and, when the store accepts it, reports success; it raises no permission
error of its own. -/
theorem handleStatusUpdate_no_role_check :
    sampleCitizen.roles = some [] ∧
    (handleStatusUpdate sampleCitizen DashState.init "r1" "Resolved" (DateReads.at 20) true).sent
      = [("r1", { status := "Resolved", updatedAt := 20, reviewedAt := none,
                  resolvedAt := some 20 })] ∧
    (handleStatusUpdate sampleCitizen DashState.init "r1" "Resolved" (DateReads.at 20) true).alerts
      = ["Report status updated to: Resolved"] := by
  decide

/-- C5 (amended): the role check is made by the `/council` route, on the
`userData` state of `App`. When `userData` has no roles containing `council`
the route does not render `CouncilDashboard`, whose handler is the only place
a status transition is started from: it redirects to `/citizen` when a user
is signed in and to `/login` otherwise. -/
theorem councilRoute_requires_council (s : AppState)
    (h : rolesIncludeCouncil s.userData = false) :
    (∀ u, councilRoute s ≠ RouteElement.councilDashboard u) ∧
    councilRoute s
      = (if s.user.isSome then RouteElement.navigate "/citizen"
         else RouteElement.navigate "/login") := by
  unfold councilRoute
  cases hu : s.user with
  | none => simp
  | some u => simp [h]

/-- C5 (amended), at a signed-in user whose record has the roles `["citizen"]`:
the `/council` route redirects to `/citizen`. -/
theorem councilRoute_requires_council_witness :
    rolesIncludeCouncil (some { roles := some ["citizen"] }) = false ∧
    councilRoute { user := some sampleCitizen, userData := some { roles := some ["citizen"] },
                   loading := false }
      = RouteElement.navigate "/citizen" :=
  ⟨by decide,
   (councilRoute_requires_council
      { user := some sampleCitizen, userData := some { roles := some ["citizen"] },
        loading := false } (by decide)).2⟩

theorem statusActions_contains (status : Option String) (target : String) :
    (statusActions status).contains target = true ↔
      status ≠ some "Resolved" ∧
        (target = "Resolved" ∨ target = "Archived" ∨
          (target = "In Review" ∧ status ≠ some "In Review")) := by
  unfold statusActions
  by_cases h1 : status = some "Resolved"
  · simp [h1]
  · by_cases h2 : status = some "In Review"
    · simp [h2]
    · simp [h1, h2]
      tauto

theorem transition_status (r : Report) (newStatus : String) (now : DateReads) :
    (transition r newStatus now).status = some newStatus := rfl

theorem transition_resolvedAt (r : Report) (newStatus : String) (now : DateReads) :
    (transition r newStatus now).resolvedAt
      = if newStatus = "Resolved" then some now.resolvedAt else r.resolvedAt := by
  by_cases h : newStatus = "Resolved" <;> simp [transition, applyPatch, statusPatch, h]

theorem transition_reviewedAt (r : Report) (newStatus : String) (now : DateReads) :
    (transition r newStatus now).reviewedAt
      = if newStatus = "In Review" then some now.reviewedAt else r.reviewedAt := by
  by_cases h : newStatus = "In Review" <;> simp [transition, applyPatch, statusPatch, h]

/-- C6: for every report whose status is `Submitted` and whose `reviewedAt`
is unset, the dashboard renders the "Mark Resolved" button, the handler sends
the `Resolved` patch for the report, and once the store has applied it the
report has status `Resolved`, `resolvedAt` set and `reviewedAt` still
unset. -/
theorem submitted_to_resolved_direct (user : AppUser) (st : DashState) (r : Report)
    (now : DateReads) (storeAccepts : Bool)
    (hs : r.status = some "Submitted") (hr : r.reviewedAt = none) :
    (statusActions r.status).contains "Resolved" = true ∧
    (handleStatusUpdate user st r.id "Resolved" now storeAccepts).sent
      = [(r.id, statusPatch "Resolved" now)] ∧
    dashboardRun r [("Resolved", now)] = some (transition r "Resolved" now) ∧
    (transition r "Resolved" now).status = some "Resolved" ∧
    (transition r "Resolved" now).resolvedAt = some now.resolvedAt ∧
    (transition r "Resolved" now).reviewedAt = none := by
  have hc : (statusActions r.status).contains "Resolved" = true := by
    rw [statusActions_contains]; simp [hs]
  refine ⟨hc, ?_, ?_, rfl, ?_, ?_⟩
  · cases storeAccepts <;> rfl
  · unfold dashboardRun
    rw [if_pos hc]
    rfl
  · simp [transition_resolvedAt]
  · simp [transition_reviewedAt, hr]

/-- C6, at the sample report resolved at time 20. -/
theorem submitted_to_resolved_direct_witness :
    sampleReport.status = some "Submitted" ∧ sampleReport.reviewedAt = none ∧
    (transition sampleReport "Resolved" (DateReads.at 20)).status = some "Resolved" ∧
    (transition sampleReport "Resolved" (DateReads.at 20)).resolvedAt = some 20 ∧
    (transition sampleReport "Resolved" (DateReads.at 20)).reviewedAt = none :=
  ⟨by decide, by decide,
   (submitted_to_resolved_direct sampleCitizen DashState.init sampleReport (DateReads.at 20)
      true (by decide) (by decide)).2.2.2⟩

/-- C7 (as stated, refuted): marking the sample report `In Review` at time 1
and again at time 2 changes `reviewedAt` from 1 to 2, so the second
application changes a field other than `updatedAt`; likewise `resolvedAt`
for `Resolved`. -/
theorem repeated_transition_rewrites_timestamp :
    (1 : Nat) ≤ 2 ∧
    (transition sampleReport "In Review" (DateReads.at 1)).reviewedAt = some 1 ∧
    (transition (transition sampleReport "In Review" (DateReads.at 1)) "In Review"
      (DateReads.at 2)).reviewedAt = some 2 ∧
    (transition sampleReport "Resolved" (DateReads.at 1)).resolvedAt = some 1 ∧
    (transition (transition sampleReport "Resolved" (DateReads.at 1)) "Resolved"
      (DateReads.at 2)).resolvedAt = some 2 := by
  decide

/-- C7 (amended): applying the same transition twice in succession leaves
`status` and every field other than `updatedAt` and the timestamp that
belongs to the target status unchanged; the second application overwrites
`updatedAt`, and `reviewedAt` when the target is `In Review`, `resolvedAt`
when it is `Resolved`, with the readings of the second call; for `Archived`
only `updatedAt` changes. -/
theorem repeated_transition (r : Report) (newStatus : String) (now1 now2 : DateReads) :
    transition (transition r newStatus now1) newStatus now2
      = { transition r newStatus now1 with
          updatedAt := some now2.updatedAt
          reviewedAt := if newStatus = "In Review" then some now2.reviewedAt
            else (transition r newStatus now1).reviewedAt
          resolvedAt := if newStatus = "Resolved" then some now2.resolvedAt
            else (transition r newStatus now1).resolvedAt } ∧
    (transition (transition r newStatus now1) newStatus now2).status
      = (transition r newStatus now1).status ∧
    transition (transition r "Archived" now1) "Archived" now2
      = { transition r "Archived" now1 with updatedAt := some now2.updatedAt } := by
  refine ⟨?_, rfl, ?_⟩
  · by_cases h1 : newStatus = "In Review"
    · subst h1; simp [transition, applyPatch, statusPatch]
    · by_cases h2 : newStatus = "Resolved"
      · subst h2; simp [transition, applyPatch, statusPatch]
      · simp [transition, applyPatch, statusPatch, h1, h2]
  · simp [transition, applyPatch, statusPatch]

/-- C8 (as stated, refuted): starting from the sample report, the offered
actions "Mark In Review" at time 1, "Archive" at time 2 and "Mark In Review"
at time 3 leave `reviewedAt` at 3, not at its first value 1: the transition
to `In Review` writes `reviewedAt` although it was already set. -/
theorem reviewedAt_overwritten :
    (dashboardRun sampleReport [("In Review", DateReads.at 1)]).map (fun r => r.reviewedAt)
      = some (some 1) ∧
    (dashboardRun sampleReport
        [("In Review", DateReads.at 1), ("Archived", DateReads.at 2),
         ("In Review", DateReads.at 3)]).map (fun r => r.reviewedAt)
      = some (some 3) := by
  decide

/-- C8 (amended): a transition to any status other than `In Review` (so
`Resolved` and `Archived`) leaves `reviewedAt` exactly as it was, and no
transition clears a `reviewedAt` that is set; a transition to `In Review`
writes the current clock reading to `reviewedAt` whether or not it was
set. -/
theorem reviewedAt_kept (r : Report) (newStatus : String) (now : DateReads)
    (h : r.reviewedAt.isSome = true) :
    (newStatus ≠ "In Review" → (transition r newStatus now).reviewedAt = r.reviewedAt) ∧
    (transition r "Resolved" now).reviewedAt = r.reviewedAt ∧
    (transition r "Archived" now).reviewedAt = r.reviewedAt ∧
    (transition r "In Review" now).reviewedAt = some now.reviewedAt ∧
    (transition r newStatus now).reviewedAt.isSome = true := by
  refine ⟨?_, ?_, ?_, ?_, ?_⟩
  · intro hne
    simp [transition_reviewedAt, hne]
  · simp [transition_reviewedAt]
  · simp [transition_reviewedAt]
  · simp [transition_reviewedAt]
  · rw [transition_reviewedAt]
    by_cases hn : newStatus = "In Review"
    · simp [hn]
    · simp [hn, h]

/-- C8 (amended), at the sample report marked `In Review` at time 1 and then
`Resolved` at time 2: `reviewedAt` stays at 1. -/
theorem reviewedAt_kept_witness :
    (transition sampleReport "In Review" (DateReads.at 1)).reviewedAt.isSome = true ∧
    (transition (transition sampleReport "In Review" (DateReads.at 1)) "Resolved"
      (DateReads.at 2)).reviewedAt
      = (transition sampleReport "In Review" (DateReads.at 1)).reviewedAt :=
  ⟨by decide,
   (reviewedAt_kept (transition sampleReport "In Review" (DateReads.at 1)) "Resolved"
      (DateReads.at 2) (by decide)).2.1⟩

theorem dashboardRun_invariant (acts : List (String × DateReads)) :
    ∀ (r r' : Report),
      (r.resolvedAt.isSome = true ↔ r.status = some "Resolved") →
      dashboardRun r acts = some r' →
      (r'.resolvedAt.isSome = true ↔ r'.status = some "Resolved") := by
  induction acts with
  | nil =>
    intro r r' hinv hrun
    simp [dashboardRun] at hrun
    subst hrun
    exact hinv
  | cons a rest ih =>
    intro r r' hinv hrun
    obtain ⟨target, now⟩ := a
    unfold dashboardRun at hrun
    by_cases hc : (statusActions r.status).contains target = true
    · rw [if_pos hc] at hrun
      refine ih (transition r target now) r' ?_ hrun
      have hoff := (statusActions_contains r.status target).1 hc
      have hnone : r.resolvedAt.isSome = false := by
        cases hres : r.resolvedAt.isSome with
        | false => rfl
        | true => exact absurd (hinv.1 hres) hoff.1
      rw [transition_resolvedAt, transition_status]
      by_cases ht : target = "Resolved"
      · simp [ht]
      · simp [ht, hnone]
    · rw [if_neg hc] at hrun
      exact absurd hrun (by simp)

/-- C9: starting from a freshly submitted report (status `Submitted`,
`resolvedAt` unset), after every finite sequence of actions, each one a
button the dashboard renders for the report's current status and applied by
the store, `resolvedAt` is set if and only if the status is `Resolved`. -/
theorem resolvedAt_iff_resolved (r r' : Report) (acts : List (String × DateReads))
    (hs : r.status = some "Submitted") (hr : r.resolvedAt = none)
    (hrun : dashboardRun r acts = some r') :
    r'.resolvedAt.isSome = true ↔ r'.status = some "Resolved" := by
  refine dashboardRun_invariant acts r r' ?_ hrun
  simp [hs, hr]

/-- C9, at the run "Mark In Review" at time 1, "Mark Resolved" at time 2 from
the sample report. -/
theorem resolvedAt_iff_resolved_witness :
    sampleReport.status = some "Submitted" ∧ sampleReport.resolvedAt = none ∧
    dashboardRun sampleReport [("In Review", DateReads.at 1), ("Resolved", DateReads.at 2)]
      = some (transition (transition sampleReport "In Review" (DateReads.at 1)) "Resolved"
          (DateReads.at 2)) ∧
    ((transition (transition sampleReport "In Review" (DateReads.at 1)) "Resolved"
        (DateReads.at 2)).resolvedAt.isSome = true ↔
      (transition (transition sampleReport "In Review" (DateReads.at 1)) "Resolved"
        (DateReads.at 2)).status = some "Resolved") :=
  ⟨by decide, by decide, by decide,
   resolvedAt_iff_resolved sampleReport _
     [("In Review", DateReads.at 1), ("Resolved", DateReads.at 2)]
     (by decide) (by decide) (by decide)⟩

/-- C10 (as stated, refuted): for a selected report whose status is
`Archived` the dashboard renders all three buttons, so `Archived` is not a
state without transitions. -/
theorem archived_offers_actions :
    statusActions (some "Archived") = ["In Review", "Resolved", "Archived"] := by
  decide

/-- C10 (amended): the dashboard offers `In Review`, `Resolved`, `Archived`
from `Submitted`, offers `Resolved`, `Archived` from `In Review`, and offers
nothing from `Resolved`; `Resolved` is the only status it treats as
terminal: from every other status, `Archived` included, it offers `Resolved`
and `Archived`, and `In Review` as well unless that is the current
status. -/
theorem statusActions_spec (status : Option String) (target : String) :
    statusActions (some "Submitted") = ["In Review", "Resolved", "Archived"] ∧
    statusActions (some "In Review") = ["Resolved", "Archived"] ∧
    statusActions (some "Resolved") = [] ∧
    statusActions (some "Archived") = ["In Review", "Resolved", "Archived"] ∧
    (target ∈ statusActions status ↔
      status ≠ some "Resolved" ∧
        (target = "Resolved" ∨ target = "Archived" ∨
          (target = "In Review" ∧ status ≠ some "In Review"))) := by
  refine ⟨by decide, by decide, by decide, by decide, ?_⟩
  rw [← statusActions_contains status target]
  simp

/-- C11 (as stated, refuted): for a selected report whose status is
`Resolved` the dashboard renders no action at all, so no Archive button. -/
theorem resolved_offers_no_archive :
    statusActions (some "Resolved") = [] ∧
    (statusActions (some "Resolved")).contains "Archived" = false := by
  decide

/-- C11 (amended): the Archive action is offered from every status other
than `Resolved`, and from `Resolved` no action is offered. -/
theorem archive_offered_iff (status : Option String) :
    ((statusActions status).contains "Archived" = true ↔ status ≠ some "Resolved") ∧
    statusActions (some "Resolved") = [] := by
  refine ⟨?_, by decide⟩
  rw [statusActions_contains]
  simp

/-! ## Submission: properties -/

theorem uploadLoop_calls (env : SubmitEnv) (reportId : String) (images : List ImageFile) :
    ∀ (i : Nat) (imageUrls : List ImageMeta) (c : Call),
      c ∈ (uploadLoop env reportId i images imageUrls).2 →
      (∃ path image, c = Call.uploadBytes path image) ∨ (∃ path, c = Call.getDownloadURL path) := by
  induction images with
  | nil =>
    intro i imageUrls c hc
    simp [uploadLoop] at hc
  | cons image rest ih =>
    intro i imageUrls c hc
    unfold uploadLoop at hc
    by_cases hok : env.uploadOk i = true
    · cases hurl : env.downloadURL i with
      | none =>
        simp [hok, hurl] at hc
        rcases hc with h | h
        · exact Or.inl ⟨_, _, h⟩
        · exact Or.inr ⟨_, h⟩
      | some url =>
        simp [hok, hurl] at hc
        rcases hc with h | h | h
        · exact Or.inl ⟨_, _, h⟩
        · exact Or.inr ⟨_, h⟩
        · exact ih _ _ c h
    · simp [hok] at hc
      exact Or.inl ⟨_, _, hc⟩

theorem uploadImages_no_addReport (env : SubmitEnv) (reportId : String)
    (images : List ImageFile) (data : ReportData) :
    Call.addReport data ∉ (uploadImages env reportId images).2 := by
  intro h
  rcases uploadLoop_calls env reportId images 0 [] _ h with ⟨_, _, h1⟩ | ⟨_, h1⟩ <;> cases h1

theorem successCalls_no_addReport (hasOnSuccess : Bool) (data : ReportData) :
    Call.addReport data ∉ successCalls hasOnSuccess := by
  cases hasOnSuccess <;> simp [successCalls]

theorem handleSubmit_calls_shape (user : AppUser) (hasOnSuccess : Bool) (env : SubmitEnv)
    (st : FormState) (location : LatLng) (h : st.location = some location) :
    ∃ rest, (handleSubmit user hasOnSuccess env st).2
        = Call.addReport (reportData user st location) :: rest ∧
      ∀ data, Call.addReport data ∉ rest := by
  unfold handleSubmit
  rw [h]
  cases hadd : env.addReport with
  | none => exact ⟨[], rfl, by simp⟩
  | some reportId =>
    by_cases himg : st.images.length > 0
    · cases hup : (uploadImages env reportId st.images).1 with
      | none =>
        refine ⟨(uploadImages env reportId st.images).2, by simp [himg, hup], ?_⟩
        exact fun data => uploadImages_no_addReport env reportId st.images data
      | some imageUrls =>
        by_cases hatt : env.addImagesOk = true
        · refine ⟨(uploadImages env reportId st.images).2
            ++ [Call.addImages reportId imageUrls] ++ successCalls hasOnSuccess,
            by simp [himg, hup, hatt], ?_⟩
          intro data hmem
          simp only [List.mem_append, List.mem_singleton] at hmem
          rcases hmem with (hm | hm) | hm
          · exact uploadImages_no_addReport env reportId st.images data hm
          · cases hm
          · exact successCalls_no_addReport hasOnSuccess data hm
        · refine ⟨(uploadImages env reportId st.images).2
            ++ [Call.addImages reportId imageUrls], by simp [himg, hup, hatt], ?_⟩
          intro data hmem
          simp only [List.mem_append, List.mem_singleton] at hmem
          rcases hmem with hm | hm
          · exact uploadImages_no_addReport env reportId st.images data hm
          · cases hm
    · exact ⟨successCalls hasOnSuccess, by simp [himg],
        fun data => successCalls_no_addReport hasOnSuccess data⟩

/-- C12: for every form state with a selected location, whatever the
answers of the store, the first call of `handleSubmit` is the `addDoc` of a
report document whose status is `Submitted`, whose `userId` is `user.uid`,
whose coordinates are the selected location and whose `createdAt`,
`updatedAt` and `submittedAt` are all the server-timestamp sentinel; stored
at any commit time, the three fields hold that one time, so
`createdAt ≤ updatedAt`. -/
theorem handleSubmit_reportData (user : AppUser) (hasOnSuccess : Bool) (env : SubmitEnv)
    (st : FormState) (location : LatLng) (h : st.location = some location) :
    (handleSubmit user hasOnSuccess env st).2.head?
      = some (Call.addReport (reportData user st location)) ∧
    (reportData user st location).status = "Submitted" ∧
    (reportData user st location).userId = user.uid ∧
    (reportData user st location).coords
      = { latitude := location.lat, longitude := location.lng } ∧
    (reportData user st location).createdAt = TimeValue.serverTimestamp ∧
    (reportData user st location).updatedAt = TimeValue.serverTimestamp ∧
    (reportData user st location).submittedAt = TimeValue.serverTimestamp ∧
    (∀ (id : String) (serverTime : Nat),
      (storeCreate id serverTime (reportData user st location)).data.status
        = some "Submitted" ∧
      (storeCreate id serverTime (reportData user st location)).data.submittedAt
        = some serverTime ∧
      ∃ created updated,
        (storeCreate id serverTime (reportData user st location)).data.createdAt
          = some created ∧
        (storeCreate id serverTime (reportData user st location)).data.updatedAt
          = some updated ∧
        created = serverTime ∧ updated = serverTime ∧ created ≤ updated) := by
  obtain ⟨rest, hshape, _⟩ := handleSubmit_calls_shape user hasOnSuccess env st location h
  refine ⟨by rw [hshape]; rfl, rfl, rfl, rfl, rfl, rfl, rfl, ?_⟩
  intro id serverTime
  exact ⟨rfl, rfl, serverTime, serverTime, rfl, rfl, rfl, rfl, le_refl _⟩

/-- C12, at the sample form and the environment in which every call
resolves. -/
theorem handleSubmit_reportData_witness :
    sampleForm.location = some { lat := -1290000, lng := 36820000 } ∧
    (handleSubmit sampleCitizen true sampleEnv sampleForm).2.head?
      = some (Call.addReport
          (reportData sampleCitizen sampleForm { lat := -1290000, lng := 36820000 })) :=
  ⟨rfl,
   (handleSubmit_reportData sampleCitizen true sampleEnv sampleForm
      { lat := -1290000, lng := 36820000 } rfl).1⟩

/-- C13 (as stated, refuted): for a form whose title and description are
empty, whose category is not one of the six values, whose severity parses to
`NaN` and whose latitude is 200 degrees, `handleSubmit` still hands the
document to the store. -/
theorem handleSubmit_unvalidated :
    blankForm.title = "" ∧ blankForm.description = "" ∧
    blankForm.category = "noise" ∧
    blankForm.location = some { lat := 200000000, lng := 0 } ∧
    (handleSubmit sampleCitizen false sampleEnv blankForm).2
      = [Call.addReport
          { userId := "u1"
            title := ""
            description := ""
            category := "noise"
            severity := none
            coords := { latitude := 200000000, longitude := 0 }
            status := "Submitted"
            createdAt := TimeValue.serverTimestamp
            updatedAt := TimeValue.serverTimestamp
            submittedAt := TimeValue.serverTimestamp
            images := [] },
         Call.alert "Report submitted successfully!"] := by
  refine ⟨rfl, rfl, rfl, rfl, ?_⟩
  decide

/-- C13 (amended): the only check `handleSubmit` makes before persisting is
that a location is selected: it hands a document to the store exactly when
`location` is non-null, and the document is then `reportData`, built from
the form fields as they are, with the coordinates of that location. -/
theorem handleSubmit_create_iff_location (user : AppUser) (hasOnSuccess : Bool)
    (env : SubmitEnv) (st : FormState) (data : ReportData) :
    Call.addReport data ∈ (handleSubmit user hasOnSuccess env st).2 ↔
      ∃ location, st.location = some location ∧ data = reportData user st location := by
  cases hloc : st.location with
  | none =>
    simp [handleSubmit, hloc]
  | some location =>
    obtain ⟨rest, hshape, hrest⟩ :=
      handleSubmit_calls_shape user hasOnSuccess env st location hloc
    rw [hshape]
    constructor
    · intro hmem
      rcases List.mem_cons.1 hmem with hm | hm
      · exact ⟨location, rfl, by injection hm⟩
      · exact absurd hm (hrest data)
    · rintro ⟨l, hl, hd⟩
      have : l = location := by injection hl with hl; exact hl.symm
      subst this
      rw [hd]
      exact List.mem_cons_self _ _

/-- C14: for every form state whose location is null, `handleSubmit` sets
the error "Please select a location for your report", leaves `loading`
false, makes no call to the store or the storage, and leaves every other
field of the form (title, description, category, severity, images among
them) unchanged. -/
theorem handleSubmit_no_location (user : AppUser) (hasOnSuccess : Bool) (env : SubmitEnv)
    (st : FormState) (h : st.location = none) :
    (handleSubmit user hasOnSuccess env st).2 = [] ∧
    (handleSubmit user hasOnSuccess env st).1
      = { st with error := "Please select a location for your report", loading := false } ∧
    (handleSubmit user hasOnSuccess env st).1.error
      = "Please select a location for your report" ∧
    (handleSubmit user hasOnSuccess env st).1.loading = false ∧
    (handleSubmit user hasOnSuccess env st).1.title = st.title ∧
    (handleSubmit user hasOnSuccess env st).1.description = st.description ∧
    (handleSubmit user hasOnSuccess env st).1.category = st.category ∧
    (handleSubmit user hasOnSuccess env st).1.severity = st.severity ∧
    (handleSubmit user hasOnSuccess env st).1.images = st.images := by
  simp [handleSubmit, h]

/-- C14, at a form with a title and two images but no location. -/
theorem handleSubmit_no_location_witness :
    ({ sampleForm with location := none } : FormState).location = none ∧
    (handleSubmit sampleCitizen true sampleEnv { sampleForm with location := none }).2 = [] ∧
    (handleSubmit sampleCitizen true sampleEnv { sampleForm with location := none }).1.images
      = sampleImages :=
  ⟨rfl,
   (handleSubmit_no_location sampleCitizen true sampleEnv
      { sampleForm with location := none } rfl).1,
   (handleSubmit_no_location sampleCitizen true sampleEnv
      { sampleForm with location := none } rfl).2.2.2.2.2.2.2.2⟩

/-! ## Image selection and upload: properties -/

theorem removeIndex_length_le {α : Type} (xs : List α) (index : Nat) :
    (removeIndex xs index).length ≤ xs.length := by
  unfold removeIndex
  rw [List.length_map]
  calc (xs.enum.filter (fun p => p.1 != index)).length
      ≤ xs.enum.length := List.length_filter_le _ _
    _ = xs.length := List.enum_length

theorem ImageEvent.apply_images_le (st : FormState) (e : ImageEvent)
    (h : st.images.length ≤ 5) : (ImageEvent.apply st e).images.length ≤ 5 := by
  cases e with
  | change files =>
    simp only [ImageEvent.apply, handleImageChange]
    by_cases hc : files.length + st.images.length > 5
    · simp [hc, h]
    · simp only [hc, if_false, List.length_append]
      omega
  | loaded result => simpa [ImageEvent.apply, onloadend] using h
  | remove index =>
    simp only [ImageEvent.apply, removeImage]
    exact le_trans (removeIndex_length_le st.images index) h

theorem imageRun_images_le (events : List ImageEvent) :
    ∀ (st : FormState), st.images.length ≤ 5 → (imageRun st events).images.length ≤ 5 := by
  induction events with
  | nil => intro st h; simpa [imageRun] using h
  | cons e rest ih =>
    intro st h
    have := ih (ImageEvent.apply st e) (ImageEvent.apply_images_le st e h)
    simpa [imageRun] using this

/-- C15: starting from the empty image list of the initial form, after every
sequence of `handleImageChange`, preview-loaded and `removeImage` events the
list of selected images has at most 5 entries; and in the state reached, a
`handleImageChange` whose files would bring the total above 5 sets the error
"Maximum 5 images allowed" and leaves the list unchanged, while any other one
appends its files. -/
theorem images_at_most_five (events : List ImageEvent) (files : List ImageFile) :
    (imageRun FormState.init events).images.length ≤ 5 ∧
    (handleImageChange (imageRun FormState.init events) files).images
      = (if files.length + (imageRun FormState.init events).images.length > 5
         then (imageRun FormState.init events).images
         else (imageRun FormState.init events).images ++ files) ∧
    (handleImageChange (imageRun FormState.init events) files).error
      = (if files.length + (imageRun FormState.init events).images.length > 5
         then "Maximum 5 images allowed"
         else (imageRun FormState.init events).error) := by
  refine ⟨imageRun_images_le events FormState.init (by simp [FormState.init]), ?_, ?_⟩
  · unfold handleImageChange
    split <;> rfl
  · unfold handleImageChange
    split <;> rfl

theorem uploadLoop_success (env : SubmitEnv) (reportId : String) (images : List ImageFile) :
    ∀ (i : Nat) (imageUrls : List ImageMeta),
      (∀ j, j < images.length →
        env.uploadOk (i + j) = true ∧ (env.downloadURL (i + j)).isSome = true) →
      uploadLoop env reportId i images imageUrls
        = (some (imageUrls ++ (images.enumFrom i).map
              (fun p => entryOf env reportId p.1 p.2)),
           (images.enumFrom i).flatMap (fun p => storageCalls env reportId p.1 p.2)) := by
  induction images with
  | nil =>
    intro i imageUrls _
    simp [uploadLoop]
  | cons image rest ih =>
    intro i imageUrls h
    have h0 := h 0 (by simp)
    simp only [Nat.add_zero] at h0
    obtain ⟨url, hurl⟩ := Option.isSome_iff_exists.1 h0.2
    have hrest : ∀ j, j < rest.length →
        env.uploadOk (i + 1 + j) = true ∧ (env.downloadURL (i + 1 + j)).isSome = true := by
      intro j hj
      have := h (j + 1) (by simp; omega)
      have e : i + (j + 1) = i + 1 + j := by omega
      rw [e] at this
      exact this
    unfold uploadLoop
    simp only [h0.1, if_true, hurl]
    rw [ih (i + 1) _ hrest]
    simp [entryOf, storageCalls, hurl, List.enumFrom_cons]

/-- C18: when every upload of the batch succeeds, `uploadImages` returns
one metadata entry per selected image, in selection order; the entry of image
`i` has the path `reports/<reportId>/images/<fileName i>`, which is the key
its `uploadBytes` call was made with, the URL that `getDownloadURL` returned
in that iteration, the type of the image as `contentType` and its size as
`sizeBytes`. -/
theorem uploadImages_entries (env : SubmitEnv) (reportId : String) (images : List ImageFile)
    (h : ∀ i, i < images.length →
      env.uploadOk i = true ∧ (env.downloadURL i).isSome = true) :
    ∃ imageUrls, (uploadImages env reportId images).1 = some imageUrls ∧
      imageUrls.length = images.length ∧
      ∀ (i : Nat) (image : ImageFile) (url : String),
        images[i]? = some image → env.downloadURL i = some url →
        imageUrls[i]? = some
          { path := "reports/" ++ reportId ++ "/images/" ++ fileName reportId (env.now i) i image
            url := url
            contentType := image.type
            sizeBytes := image.size } ∧
        Call.uploadBytes
          ("reports/" ++ reportId ++ "/images/" ++ fileName reportId (env.now i) i image) image
          ∈ (uploadImages env reportId images).2 := by
  have hs := uploadLoop_success env reportId images 0 []
    (by intro j hj; simpa using h j hj)
  refine ⟨(images.enumFrom 0).map (fun p => entryOf env reportId p.1 p.2), ?_, ?_, ?_⟩
  · simp [uploadImages, hs]
  · simp
  · intro i image url himg hurl
    constructor
    · rw [List.getElem?_map, List.getElem?_enumFrom, himg]
      simp [entryOf, imagePath, storagePath, hurl]
    · unfold uploadImages
      rw [hs]
      simp only [List.mem_flatMap]
      refine ⟨(i, image), ?_, ?_⟩
      · rw [List.mem_iff_getElem?]
        exact ⟨i, by rw [List.getElem?_enumFrom, himg]; simp⟩
      · simp [storageCalls, imagePath, storagePath]

/-- C18, at the two sample images in the environment in which every call
resolves. -/
theorem uploadImages_entries_witness :
    (∀ i, i < sampleImages.length →
      sampleEnv.uploadOk i = true ∧ (sampleEnv.downloadURL i).isSome = true) ∧
    ∃ imageUrls, (uploadImages sampleEnv "r1" sampleImages).1 = some imageUrls ∧
      imageUrls.length = sampleImages.length :=
  ⟨fun _ _ => ⟨rfl, rfl⟩,
   (uploadImages_entries sampleEnv "r1" sampleImages (fun _ _ => ⟨rfl, rfl⟩)).imp
      (fun _ hx => ⟨hx.1, hx.2.1⟩)⟩

theorem attachedImages_storage (calls : List Call)
    (h : ∀ c, c ∈ calls →
      (∃ path image, c = Call.uploadBytes path image) ∨ (∃ path, c = Call.getDownloadURL path)) :
    attachedImages calls = [] := by
  induction calls with
  | nil => rfl
  | cons c rest ih =>
    have hrest := ih (fun d hd => h d (List.mem_cons_of_mem _ hd))
    rcases h c (List.mem_cons_self _ _) with ⟨_, _, hc⟩ | ⟨_, hc⟩
    · subst hc; simpa [attachedImages] using hrest
    · subst hc; simpa [attachedImages] using hrest

theorem uploadLoop_first_failure (env : SubmitEnv) (reportId : String)
    (images : List ImageFile) :
    ∀ (k i : Nat) (imageUrls : List ImageMeta), k < images.length →
      (∀ j, j < k → env.uploadOk (i + j) = true ∧ (env.downloadURL (i + j)).isSome = true) →
      (env.uploadOk (i + k) = false ∨ env.downloadURL (i + k) = none) →
      (uploadLoop env reportId i images imageUrls).1 = none ∧
      uploadedImages (uploadLoop env reportId i images imageUrls).2 = images.take (k + 1) := by
  induction images with
  | nil =>
    intro k i imageUrls hk
    simp at hk
  | cons image rest ih =>
    intro k i imageUrls hk hbefore hfail
    cases k with
    | zero =>
      simp only [Nat.add_zero] at hfail
      unfold uploadLoop
      by_cases hok : env.uploadOk i = true
      · have hurl : env.downloadURL i = none := by
          rcases hfail with hf | hf
          · rw [hok] at hf; cases hf
          · exact hf
        simp [hok, hurl, uploadedImages]
      · simp [hok, uploadedImages]
    | succ k =>
      have h0 := hbefore 0 (by omega)
      simp only [Nat.add_zero] at h0
      obtain ⟨url, hurl⟩ := Option.isSome_iff_exists.1 h0.2
      have hk2 : k < rest.length := by simpa using hk
      have hbefore2 : ∀ j, j < k →
          env.uploadOk (i + 1 + j) = true ∧ (env.downloadURL (i + 1 + j)).isSome = true := by
        intro j hj
        have := hbefore (j + 1) (by omega)
        have e : i + (j + 1) = i + 1 + j := by omega
        rw [e] at this
        exact this
      have hfail2 : env.uploadOk (i + 1 + k) = false ∨ env.downloadURL (i + 1 + k) = none := by
        have e : i + (k + 1) = i + 1 + k := by omega
        rw [e] at hfail
        exact hfail
      obtain ⟨h1, h2⟩ := ih k (i + 1)
        (imageUrls ++ [{ path := imagePath env reportId i image, url := url,
                         contentType := image.type, sizeBytes := image.size }])
        hk2 hbefore2 hfail2
      unfold uploadLoop
      simp only [h0.1, if_true, hurl]
      refine ⟨h1, ?_⟩
      simp only [uploadedImages, List.take_succ_cons]
      rw [h2]

/-- C16: in every submission with a selected location in which the report
document is created and an image upload then fails, the `addDoc` of the
report (with an empty `images` field) is the first call, every later call is
an `uploadBytes` or `getDownloadURL` call of the upload loop, so the stored
report is neither removed nor given images, and the form shows the failure
message with its fields kept. -/
theorem report_created_before_uploads (user : AppUser) (hasOnSuccess : Bool)
    (env : SubmitEnv) (st : FormState) (location : LatLng) (reportId : String)
    (hl : st.location = some location) (hc : env.addReport = some reportId)
    (hf : (uploadImages env reportId st.images).1 = none) :
    (handleSubmit user hasOnSuccess env st).2
      = Call.addReport (reportData user st location)
          :: (uploadImages env reportId st.images).2 ∧
    (reportData user st location).images = [] ∧
    (∀ c, c ∈ (uploadImages env reportId st.images).2 →
      (∃ path image, c = Call.uploadBytes path image) ∨
        (∃ path, c = Call.getDownloadURL path)) ∧
    attachedImages (handleSubmit user hasOnSuccess env st).2 = [] ∧
    (handleSubmit user hasOnSuccess env st).1 = submitFailed st := by
  have himg : st.images.length > 0 := by
    cases hi : st.images with
    | nil => rw [hi] at hf; simp [uploadImages, uploadLoop] at hf
    | cons a l => simp
  have hcalls := uploadLoop_calls env reportId st.images 0 []
  have hrun : handleSubmit user hasOnSuccess env st
      = (submitFailed st,
         Call.addReport (reportData user st location)
           :: (uploadImages env reportId st.images).2) := by
    unfold handleSubmit
    simp [hl, hc, himg, hf]
  refine ⟨by rw [hrun], rfl, hcalls, ?_, by rw [hrun]⟩
  rw [hrun]
  simpa [attachedImages] using attachedImages_storage _ hcalls

/-- C16, at the sample form when the upload of the second image fails. -/
theorem report_created_before_uploads_witness :
    sampleForm.location = some { lat := -1290000, lng := 36820000 } ∧
    (uploadImages { sampleEnv with uploadOk := fun i => i != 1 } "r1" sampleForm.images).1
      = none ∧
    (handleSubmit sampleCitizen true { sampleEnv with uploadOk := fun i => i != 1 }
        sampleForm).2
      = Call.addReport
          (reportData sampleCitizen sampleForm { lat := -1290000, lng := 36820000 })
          :: (uploadImages { sampleEnv with uploadOk := fun i => i != 1 } "r1"
                sampleForm.images).2 :=
  ⟨rfl, by decide,
   (report_created_before_uploads sampleCitizen true
      { sampleEnv with uploadOk := fun i => i != 1 } sampleForm
      { lat := -1290000, lng := 36820000 } "r1" rfl rfl (by decide)).1⟩

/-- C17 (as stated, refuted): with two selected images, when the upload of
the first fails the upload of the second, which would succeed, is never
attempted; and when the first uploads and the second fails, the metadata of
the first is not recorded: no `addDoc` on the `images` sub-collection is
made. -/
theorem upload_failure_not_isolated :
    sampleForm.images.length = 2 ∧
    uploadedImages (handleSubmit sampleCitizen true
        { sampleEnv with uploadOk := fun i => i != 0 } sampleForm).2
      = [{ name := "river.jpg", type := "image/jpeg", size := 1200 }] ∧
    uploadedImages (handleSubmit sampleCitizen true
        { sampleEnv with uploadOk := fun i => i != 1 } sampleForm).2
      = sampleImages ∧
    attachedImages (handleSubmit sampleCitizen true
        { sampleEnv with uploadOk := fun i => i != 1 } sampleForm).2
      = [] := by
  decide

/-- C17 (amended): the uploads of a batch are made one after the other and
the first failure ends the batch. When image `k` is the first whose upload
(or URL retrieval) fails, the images up to and including `k` are the ones
whose upload was attempted, the later ones are not attempted, no image
metadata is recorded for the report (no `addDoc` on the `images`
sub-collection is made), and the form shows the failure message; the report
document itself has been created. -/
theorem upload_stops_at_first_failure (user : AppUser) (hasOnSuccess : Bool)
    (env : SubmitEnv) (st : FormState) (location : LatLng) (reportId : String) (k : Nat)
    (hl : st.location = some location) (hc : env.addReport = some reportId)
    (hk : k < st.images.length)
    (hbefore : ∀ j, j < k → env.uploadOk j = true ∧ (env.downloadURL j).isSome = true)
    (hfail : env.uploadOk k = false ∨ env.downloadURL k = none) :
    (uploadImages env reportId st.images).1 = none ∧
    uploadedImages (handleSubmit user hasOnSuccess env st).2 = st.images.take (k + 1) ∧
    attachedImages (handleSubmit user hasOnSuccess env st).2 = [] ∧
    (handleSubmit user hasOnSuccess env st).2.head?
      = some (Call.addReport (reportData user st location)) ∧
    (handleSubmit user hasOnSuccess env st).1 = submitFailed st := by
  obtain ⟨h1, h2⟩ := uploadLoop_first_failure env reportId st.images k 0 [] hk
    (by intro j hj; simpa using hbefore j hj) (by simpa using hfail)
  have hcalls := uploadLoop_calls env reportId st.images 0 []
  have hrun : handleSubmit user hasOnSuccess env st
      = (submitFailed st,
         Call.addReport (reportData user st location)
           :: (uploadImages env reportId st.images).2) := by
    have himg : st.images.length > 0 := by omega
    have hf : (uploadImages env reportId st.images).1 = none := h1
    unfold handleSubmit
    simp [hl, hc, himg, hf]
  refine ⟨h1, ?_, ?_, by rw [hrun]; rfl, by rw [hrun]⟩
  · rw [hrun]
    simpa [uploadedImages, uploadImages] using h2
  · rw [hrun]
    simpa [attachedImages] using attachedImages_storage _ hcalls

/-- C17 (amended), at the sample form when the upload of the first image
fails: only the first image is attempted. -/
theorem upload_stops_at_first_failure_witness :
    (0 : Nat) < sampleForm.images.length ∧
    uploadedImages (handleSubmit sampleCitizen true
        { sampleEnv with uploadOk := fun i => i != 0 } sampleForm).2
      = sampleForm.images.take 1 :=
  ⟨by decide,
   (upload_stops_at_first_failure sampleCitizen true
      { sampleEnv with uploadOk := fun i => i != 0 } sampleForm
      { lat := -1290000, lng := 36820000 } "r1" 0 rfl rfl (by decide)
      (fun j hj => absurd hj (Nat.not_lt_zero j)) (Or.inl rfl)).2.1⟩

/-! ## Dashboard state: properties -/

/-- C19: for every dashboard state, with a selected report or not,
`handleStatusUpdate` leaves `selectedReport` null when the store update
succeeds and leaves it as it was when the store update fails; in both cases
`updating` is false afterwards, and the report list, the stats and `loading`
are as before. -/
theorem handleStatusUpdate_selection (user : AppUser) (st : DashState)
    (reportId newStatus : String) (now : DateReads) (storeAccepts : Bool) :
    (handleStatusUpdate user st reportId newStatus now true).state.selectedReport = none ∧
    (handleStatusUpdate user st reportId newStatus now false).state.selectedReport
      = st.selectedReport ∧
    (handleStatusUpdate user st reportId newStatus now storeAccepts).state.updating = false ∧
    (handleStatusUpdate user st reportId newStatus now storeAccepts).state.reports
      = st.reports ∧
    (handleStatusUpdate user st reportId newStatus now storeAccepts).state.stats = st.stats ∧
    (handleStatusUpdate user st reportId newStatus now storeAccepts).state.loading
      = st.loading := by
  refine ⟨rfl, rfl, ?_, ?_, ?_, ?_⟩ <;> cases storeAccepts <;> rfl

/-- C20: the report list and the stats after a snapshot delivery are a
function of the snapshot alone, whatever the prior state; delivering a
snapshot twice in a row gives the state of delivering it once, and
delivering one snapshot and then another gives the state of delivering the
second alone. -/
theorem onSnapshot_replaces (st st' : DashState) (docs docs1 : List Doc) :
    (onSnapshot st docs).reports = (onSnapshot st' docs).reports ∧
    (onSnapshot st docs).stats = (onSnapshot st' docs).stats ∧
    (onSnapshot st docs).reports = docs.map Doc.toReport ∧
    (onSnapshot st docs).stats = computeStats (docs.map Doc.toReport) ∧
    onSnapshot (onSnapshot st docs) docs = onSnapshot st docs ∧
    onSnapshot (onSnapshot st docs1) docs = onSnapshot st docs :=
  ⟨rfl, rfl, rfl, rfl, rfl, rfl⟩

/-! ## Storage paths: properties -/

theorem digitChar_val (k : Nat) (h : k < 10) :
    (Nat.digitChar k).toNat - 48 = k ∧ Nat.digitChar k ≠ '_' ∧ Nat.digitChar k ≠ '.' := by
  interval_cases k <;> decide

theorem toDigitsCore_chars (fuel : Nat) :
    ∀ (n : Nat) (ds : List Char) (c : Char), c ∈ Nat.toDigitsCore 10 fuel n ds →
      c ∈ ds ∨ (c ≠ '_' ∧ c ≠ '.') := by
  induction fuel with
  | zero => intro n ds c h; exact Or.inl (by simpa [Nat.toDigitsCore] using h)
  | succ fuel ih =>
    intro n ds c h
    have hd := digitChar_val (n % 10) (Nat.mod_lt _ (by decide))
    unfold Nat.toDigitsCore at h
    simp only at h
    split at h
    · rcases List.mem_cons.1 h with h1 | h1
      · exact Or.inr (h1 ▸ hd.2)
      · exact Or.inl h1
    · rcases ih _ _ c h with h1 | h1
      · rcases List.mem_cons.1 h1 with h2 | h2
        · exact Or.inr (h2 ▸ hd.2)
        · exact Or.inl h2
      · exact Or.inr h1

theorem toDigitsCore_value (fuel : Nat) :
    ∀ (n : Nat) (ds : List Char), n < fuel →
      (Nat.toDigitsCore 10 fuel n ds).foldl (fun acc c => acc * 10 + (c.toNat - 48)) 0
        = ds.foldl (fun acc c => acc * 10 + (c.toNat - 48)) n := by
  induction fuel with
  | zero => intro n ds h; omega
  | succ fuel ih =>
    intro n ds h
    have hd := (digitChar_val (n % 10) (Nat.mod_lt _ (by decide))).1
    unfold Nat.toDigitsCore
    simp only
    split
    · rename_i h0
      simp only [List.foldl_cons, hd]
      have : n % 10 = n := by omega
      simp [this]
    · rename_i h0
      have hlt : n / 10 < fuel := by omega
      rw [ih _ _ hlt]
      simp only [List.foldl_cons, hd]
      have : n / 10 * 10 + n % 10 = n := by omega
      rw [this]

theorem toString_nat_injective (n m : Nat) (h : toString n = toString m) : n = m := by
  have h1 : Nat.toDigits 10 n = Nat.toDigits 10 m := by
    have := congrArg String.data h
    simpa [toString, Nat.repr, List.asString] using this
  have hn := toDigitsCore_value (n + 1) n [] (by omega)
  have hm := toDigitsCore_value (m + 1) m [] (by omega)
  unfold Nat.toDigits at h1
  rw [h1] at hn
  rw [hn] at hm
  simpa using hm

theorem toString_nat_chars (n : Nat) (c : Char) (h : c ∈ (toString n).data) :
    c ≠ '_' ∧ c ≠ '.' := by
  have h1 : c ∈ Nat.toDigits 10 n := by
    simpa [toString, Nat.repr, List.asString] using h
  rcases toDigitsCore_chars _ _ _ c h1 with h2 | h2
  · simp at h2
  · exact h2

theorem split_at_separator (c : Char) :
    ∀ (a b x y : List Char), c ∉ a → c ∉ b → a ++ c :: x = b ++ c :: y → a = b ∧ x = y := by
  intro a
  induction a with
  | nil =>
    intro b x y _ hb h
    cases b with
    | nil => simpa using h
    | cons d b =>
      simp at h
      exact absurd h.1 (fun e => hb (by simp [e]))
  | cons d a ih =>
    intro b x y ha hb h
    cases b with
    | nil =>
      simp at h
      exact absurd h.1 (fun e => ha (by simp [e]))
    | cons e b =>
      simp at h
      have := ih b x y (fun m => ha (List.mem_cons_of_mem _ m))
        (fun m => hb (List.mem_cons_of_mem _ m)) h.2
      exact ⟨by rw [h.1, this.1], this.2⟩

/-- C24: for every report id, every reading of the clock per iteration and
every two image files, the storage paths `uploadImages` builds in two
different iterations `i ≠ j` of a batch are different strings: the file name
is `<reportId>_<timestamp>_<i>.<extension>`, the timestamp and the index are
written in decimal digits, so the index can be read back from the path. -/
theorem imagePath_injective (env : SubmitEnv) (reportId : String) (i j : Nat)
    (imageI imageJ : ImageFile) (h : i ≠ j) :
    imagePath env reportId i imageI ≠ imagePath env reportId j imageJ := by
  intro heq
  have hd := congrArg String.data heq
  simp only [imagePath, storagePath, fileName, String.data_append, List.append_assoc,
    List.append_cancel_left_eq] at hd
  simp only [List.singleton_append] at hd
  have h1 := split_at_separator '_' _ _ _ _
    (fun m => (toString_nat_chars _ _ m).1 rfl)
    (fun m => (toString_nat_chars _ _ m).1 rfl) hd
  have h2 := split_at_separator '.' _ _ _ _
    (fun m => (toString_nat_chars _ _ m).2 rfl)
    (fun m => (toString_nat_chars _ _ m).2 rfl) h1.2
  have h3 : toString i = toString j := by
    have := h2.1
    exact String.ext this
  exact h (toString_nat_injective i j h3)

/-- C24, at the two sample images, which get the paths of iterations 0
and 1. -/
theorem imagePath_injective_witness :
    (0 : Nat) ≠ 1 ∧
    imagePath sampleEnv "r1" 0 { name := "river.jpg", type := "image/jpeg", size := 1200 }
      ≠ imagePath sampleEnv "r1" 1
          { name := "bank.photo.png", type := "image/png", size := 3400 } :=
  ⟨by decide, imagePath_injective sampleEnv "r1" 0 1 _ _ (by decide)⟩

/-! ## Dashboard selection: properties -/

theorem pressAction_frame (user : AppUser) (st : DashState) (target : String)
    (now : DateReads) (storeAccepts : Bool) :
    (pressAction user st target now storeAccepts).reports = st.reports ∧
    ((pressAction user st target now storeAccepts).selectedReport = none ∨
      (pressAction user st target now storeAccepts).selectedReport = st.selectedReport) := by
  unfold pressAction
  cases hsel : st.selectedReport with
  | none => simp [hsel]
  | some selected =>
    by_cases hc : (statusActions selected.status).contains target = true
    · cases storeAccepts
      · simp only [hc, if_true]
        exact ⟨rfl, Or.inr hsel⟩
      · simp only [hc, if_true]
        exact ⟨rfl, Or.inl rfl⟩
    · simp only [hc]
      exact ⟨rfl, Or.inr hsel⟩

theorem dashEvents_append (user : AppUser) (st : DashState) (events : List DashEvent)
    (e : DashEvent) :
    dashEvents user st (events ++ [e]) = DashEvent.apply user (dashEvents user st events) e := by
  simp [dashEvents, List.foldl_append]

theorem dashEvents_origin (user : AppUser) (events : List DashEvent) :
    (∀ r, r ∈ (dashEvents user DashState.init events).reports →
      ∃ docs, DashEvent.snapshot docs ∈ events ∧ r ∈ docs.map Doc.toReport) ∧
    (∀ r, (dashEvents user DashState.init events).selectedReport = some r →
      ∃ docs, DashEvent.snapshot docs ∈ events ∧ r ∈ docs.map Doc.toReport) := by
  induction events using List.reverseRecOn with
  | nil =>
    constructor
    · intro r hr
      simp [dashEvents, DashState.init] at hr
    · intro r hr
      simp [dashEvents, DashState.init] at hr
  | append_singleton events e ih =>
    rw [dashEvents_append]
    have lift : ∀ r, (∃ docs, DashEvent.snapshot docs ∈ events ∧ r ∈ docs.map Doc.toReport) →
        ∃ docs, DashEvent.snapshot docs ∈ events ++ [e] ∧ r ∈ docs.map Doc.toReport := by
      rintro r ⟨docs, hd, hr⟩
      exact ⟨docs, List.mem_append_left _ hd, hr⟩
    cases e with
    | snapshot docs =>
      constructor
      · intro r hr
        exact ⟨docs, by simp, hr⟩
      · intro r hr
        exact lift r (ih.2 r hr)
    | click row =>
      constructor
      · intro r hr
        have hrep : (clickRow (dashEvents user DashState.init events) row).reports
            = (dashEvents user DashState.init events).reports := by
          unfold clickRow
          split <;> rfl
        simp only [DashEvent.apply] at hr
        rw [hrep] at hr
        exact lift r (ih.1 r hr)
      · intro r hr
        simp only [DashEvent.apply, clickRow] at hr
        cases hrow : (dashEvents user DashState.init events).reports[row]? with
        | none =>
          rw [hrow] at hr
          exact lift r (ih.2 r hr)
        | some report =>
          rw [hrow] at hr
          simp only [Option.some.injEq] at hr
          subst hr
          exact lift report (ih.1 report (List.getElem?_mem hrow))
    | action target now storeAccepts =>
      have hf := pressAction_frame user (dashEvents user DashState.init events) target now
        storeAccepts
      constructor
      · intro r hr
        simp only [DashEvent.apply] at hr
        rw [hf.1] at hr
        exact lift r (ih.1 r hr)
      · intro r hr
        simp only [DashEvent.apply] at hr
        rcases hf.2 with h1 | h1
        · rw [h1] at hr
          cases hr
        · rw [h1] at hr
          exact lift r (ih.2 r hr)

/-- C21 (as stated, refuted): after a snapshot holding report `r1` as
`Submitted`, a click on its row, and a second snapshot holding `r1` as
`Resolved`, the selected report is still the `Submitted` copy, which is not
a member of the current report list. -/
theorem selectedReport_stale :
    (dashEvents sampleCitizen DashState.init
        [DashEvent.snapshot [{ id := "r1", data := sampleData "Submitted" }],
         DashEvent.click 0,
         DashEvent.snapshot [{ id := "r1", data := sampleData "Resolved" }]]).selectedReport
      = some sampleReport ∧
    sampleReport ∉
      (dashEvents sampleCitizen DashState.init
        [DashEvent.snapshot [{ id := "r1", data := sampleData "Submitted" }],
         DashEvent.click 0,
         DashEvent.snapshot [{ id := "r1", data := sampleData "Resolved" }]]).reports := by
  decide

/-- C21 (amended): in every dashboard state reached by snapshot deliveries,
row clicks and action presses, the selected report, when there is one, is a
member of a snapshot that has been delivered: a click selects the member of
the current list at the clicked row, a snapshot delivery replaces the list
and leaves the selection as it is, and an action press leaves the list as it
is. -/
theorem selectedReport_from_snapshot (user : AppUser) (events : List DashEvent) (r : Report)
    (h : (dashEvents user DashState.init events).selectedReport = some r) :
    (∃ docs, DashEvent.snapshot docs ∈ events ∧ r ∈ docs.map Doc.toReport) ∧
    (∀ (st : DashState) (docs : List Doc),
      (onSnapshot st docs).selectedReport = st.selectedReport) ∧
    (∀ (st : DashState) (row : Nat),
      (clickRow st row).selectedReport
        = (match st.reports[row]? with
           | some report => some report
           | none => st.selectedReport) ∧
      (clickRow st row).reports = st.reports) := by
  refine ⟨(dashEvents_origin user events).2 r h, fun _ _ => rfl, ?_⟩
  intro st row
  unfold clickRow
  cases st.reports[row]? <;> exact ⟨rfl, rfl⟩

/-- C21 (amended), at the run of the two snapshots with a click between
them. -/
theorem selectedReport_from_snapshot_witness :
    (dashEvents sampleCitizen DashState.init
        [DashEvent.snapshot [{ id := "r1", data := sampleData "Submitted" }],
         DashEvent.click 0,
         DashEvent.snapshot [{ id := "r1", data := sampleData "Resolved" }]]).selectedReport
      = some sampleReport ∧
    ∃ docs, DashEvent.snapshot docs ∈
        [DashEvent.snapshot [{ id := "r1", data := sampleData "Submitted" }],
         DashEvent.click 0,
         DashEvent.snapshot [{ id := "r1", data := sampleData "Resolved" }]] ∧
      sampleReport ∈ docs.map Doc.toReport :=
  ⟨by decide,
   (selectedReport_from_snapshot sampleCitizen
      [DashEvent.snapshot [{ id := "r1", data := sampleData "Submitted" }],
       DashEvent.click 0,
       DashEvent.snapshot [{ id := "r1", data := sampleData "Resolved" }]]
      sampleReport (by decide)).1⟩

/-! ## Severity, auth state, location handler and render: properties -/

theorem severityRun_append (st : FormState) (values : List String) (v : String) :
    severityRun st (values ++ [v]) = selectSeverity (severityRun st values) v := by
  simp [severityRun, List.foldl_append]

/-- C22: for every form state reached from the initial state by choosing
options of the severity select, the severity `handleSubmit` stores,
`parseInt(severity)`, is one of 1, 2, 3, 4. -/
theorem severity_in_range (user : AppUser) (location : LatLng) (values : List String)
    (h : ∀ v, v ∈ values → v ∈ severityOptions) :
    (reportData user (severityRun FormState.init values) location).severity
      = parseInt (severityRun FormState.init values).severity ∧
    (parseInt (severityRun FormState.init values).severity = some 1 ∨
      parseInt (severityRun FormState.init values).severity = some 2 ∨
      parseInt (severityRun FormState.init values).severity = some 3 ∨
      parseInt (severityRun FormState.init values).severity = some 4) := by
  refine ⟨rfl, ?_⟩
  induction values using List.reverseRecOn with
  | nil => exact Or.inr (Or.inl (by decide))
  | append_singleton values v _ =>
    rw [severityRun_append]
    have hv : v ∈ severityOptions := h v (by simp)
    simp only [severityOptions, List.mem_cons, List.mem_singleton, List.not_mem_nil,
      or_false] at hv
    rcases hv with hv | hv | hv | hv <;> subst hv
    · exact Or.inl (show parseInt (SeverityValue.str "1") = some 1 by decide)
    · exact Or.inr (Or.inl (show parseInt (SeverityValue.str "2") = some 2 by decide))
    · exact Or.inr (Or.inr (Or.inl
        (show parseInt (SeverityValue.str "3") = some 3 by decide)))
    · exact Or.inr (Or.inr (Or.inr
        (show parseInt (SeverityValue.str "4") = some 4 by decide)))

/-- C22, at the choices "4" then "1". -/
theorem severity_in_range_witness :
    (∀ v, v ∈ ["4", "1"] → v ∈ severityOptions) ∧
    (parseInt (severityRun FormState.init ["4", "1"]).severity = some 1 ∨
      parseInt (severityRun FormState.init ["4", "1"]).severity = some 2 ∨
      parseInt (severityRun FormState.init ["4", "1"]).severity = some 3 ∨
      parseInt (severityRun FormState.init ["4", "1"]).severity = some 4) :=
  ⟨by decide,
   (severity_in_range sampleCitizen { lat := 0, lng := 0 } ["4", "1"] (by decide)).2⟩

/-- C23 (the code at the failing input): after the callback for a council
member whose record is found and then the callback for a user who has no
record, `userData` still holds the record of the council member, and the
`/council` route renders `CouncilDashboard` for the second user, who has no
record of their own. -/
theorem stale_userData_grants_council :
    ownRecord
        [AuthEvent.signedIn sampleCouncilAuth (UserFetch.found { roles := some ["council"] }),
         AuthEvent.signedIn sampleNewcomerAuth UserFetch.missing]
      = none ∧
    (authRun AppState.init
        [AuthEvent.signedIn sampleCouncilAuth (UserFetch.found { roles := some ["council"] }),
         AuthEvent.signedIn sampleNewcomerAuth UserFetch.missing]).userData
      = some { roles := some ["council"] } ∧
    councilRoute (authRun AppState.init
        [AuthEvent.signedIn sampleCouncilAuth (UserFetch.found { roles := some ["council"] }),
         AuthEvent.signedIn sampleNewcomerAuth UserFetch.missing])
      = RouteElement.councilDashboard
          { uid := "b", email := "newcomer@example.org", roles := none } := by
  decide

/-- C25 (the code at the failing input): for every location event, whether
a callback was supplied as the prop or not, and however many nested calls
are allowed beyond three, the handler calls itself on `e.latlng`, then on
the `latlng` property of that position, which is `undefined`, and the third
call throws a `TypeError`; the callback received as the prop is never
called. -/
theorem onLocationFound_never_calls_prop (propSupplied : Bool) (p : LatLng) (fuel : Nat) :
    onLocationFound propSupplied (fuel + 3) (HandlerArg.event p)
      = some { propCalls := []
               thrown := some
                 "TypeError: Cannot read properties of undefined (reading latlng)" } := by
  rfl

theorem readsBeforePreviews_bound (st : FormState) :
    firstUnbound (readsBeforePreviews st) = none := by
  unfold readsBeforePreviews
  cases st.location <;> cases st.showMap <;> by_cases he : st.error = "" <;>
    simp [he] <;> decide

/-- C26 (the code at the failing input): for every form state the render of
`ReportForm` ends in a `ReferenceError` for `imagePreviews`: the identifiers
read before the "Image Previews" block are bound, the block reads
`imagePreviews`, and the state cell of the previews is declared under the
name `imagePrePreviews`; so no preview grid is rendered, whatever the list of
previews holds. -/
theorem renderForm_referenceError (st : FormState) :
    renderForm st = RenderResult.referenceError "imagePreviews" ∧
    formBindings.contains "imagePreviews" = false ∧
    formBindings.contains "imagePrePreviews" = true ∧
    renderForm (onloadend st "data:image/png;base64,AAAA")
      ≠ RenderResult.rendered true := by
  have hr : ∀ s : FormState, renderForm s = RenderResult.referenceError "imagePreviews" := by
    intro s
    unfold renderForm
    rw [readsBeforePreviews_bound]
    rfl
  refine ⟨hr st, by decide, by decide, ?_⟩
  rw [hr]
  intro hc
  cases hc

end CarbonSentinel
